import Mathlib

/-!
Verification of the pattern-detection engine of the Stocks.py repository
(`utils/pattern_detection.py`) against its natural-language specification.

The Python code is shallowly embedded: a price bar keeps the three OHLC
columns the detectors actually read (High, Low, Close); machine floats are
modelled by exact rationals (`ℚ`); numpy operations that raise on empty
input (`np.max`, `np.min`, `np.argmin`, `np.argmax`, indexing `[-1]`) are
modelled as `Option`-returning functions, and the detectors that reach them
return `Option` results, `none` standing for an uncaught exception.
`np.std(x)/np.mean(x) > c` (which in float arithmetic never raises, giving
`inf`/`nan` on a zero mean) is modelled by the sign-case analysis
`stdRatioGT`, avoiding square roots.
-/

/-- A price bar, restricted to the columns read by the detectors.
The `Open` and `Volume` columns of the source DataFrame are never read
by `pattern_detection.py` and are omitted. -/
structure Bar where
  high : ℚ
  low : ℚ
  close : ℚ
deriving DecidableEq, Repr

/-- Column extraction: `data['High'].values`. -/
def highsL (data : List Bar) : List ℚ := data.map Bar.high

/-- Column extraction: `data['Low'].values`. -/
def lowsL (data : List Bar) : List ℚ := data.map Bar.low

/-- Column extraction: `data['Close'].values`. -/
def closesL (data : List Bar) : List ℚ := data.map Bar.close

/-- Python slice `l[a:b]` (start clamped only implicitly: indices past the
end are dropped, and an empty range yields `[]`). -/
def sliceL (l : List ℚ) (a b : ℕ) : List ℚ := (l.drop a).take (b - a)

/-- Model of `np.max`: fails (`none`) on an empty array. -/
def listMaxQ : List ℚ → Option ℚ
  | [] => none
  | x :: xs => some (xs.foldl max x)

/-- Model of `np.min`: fails (`none`) on an empty array. -/
def listMinQ : List ℚ → Option ℚ
  | [] => none
  | x :: xs => some (xs.foldl min x)

/-- Model of `np.argmin`: the first index attaining the minimum value,
failing (`none`) on an empty array.  `np.argmin` scans left to right and
returns the first occurrence of the minimum, which is exactly the
`indexOf` of the minimum value. -/
def npArgmin (l : List ℚ) : Option ℕ :=
  match listMinQ l with
  | none => none
  | some m => some (l.indexOf m)

/-- Model of `np.argmax`: first index attaining the maximum value. -/
def npArgmax (l : List ℚ) : Option ℕ :=
  match listMaxQ l with
  | none => none
  | some m => some (l.indexOf m)

/-- Model of `np.mean` (total: numpy yields `nan` rather than raising on an
empty array, and every call site passes a nonempty array). -/
def meanQ (l : List ℚ) : ℚ := l.sum / l.length

/-- Population variance, i.e. the square of `np.std`. -/
def varQ (l : List ℚ) : ℚ := (l.map (fun x => (x - meanQ l) ^ 2)).sum / l.length

/-- Model of the float test `np.std(l) / np.mean(l) > c` for `c > 0`,
without square roots.  With a positive mean the test is equivalent to
`var > c² · mean²`; with a negative mean the left side is nonpositive so
the test is false; with mean `0` numpy produces `inf` (std positive, test
true) or `nan` (std zero, test false) without raising. -/
def stdRatioGT (l : List ℚ) (c : ℚ) : Bool :=
  let μ := meanQ l
  if 0 < μ then decide (c ^ 2 * μ ^ 2 < varQ l)
  else if μ < 0 then false
  else decide (0 < varQ l)

/-- Test that a list of prices is strictly increasing, as in
`all(p[i] < p[i+1] for i in range(len(p)-1))`. -/
def strictIncr : List ℚ → Bool
  | x :: y :: rest => decide (x < y) && strictIncr (y :: rest)
  | _ => true

/-- Test that a list of prices is strictly decreasing, as in
`all(p[i] > p[i+1] for i in range(len(p)-1))`. -/
def strictDecr : List ℚ → Bool
  | x :: y :: rest => decide (y < x) && strictDecr (y :: rest)
  | _ => true

/-- Slope of the line through `(i1, v1)` and `(i2, v2)`, as computed by
`(peak3 - peak1) / (peak3_idx - peak1_idx)` and the analogous trough
expression in `detect_triangle`. -/
def lineSlope (v1 v2 : ℚ) (i1 i2 : ℕ) : ℚ := (v2 - v1) / ((i2 : ℚ) - (i1 : ℚ))

/-- Kind of extremum requested from the extrema finder. -/
inductive ExtKind where
  | peak
  | trough
deriving DecidableEq, Repr

/-- Comparison used by `scipy.signal.argrelextrema`: `np.greater_equal`
for peaks, `np.less_equal` for troughs, `a` being the candidate value. -/
def ExtKind.cmp : ExtKind → ℚ → ℚ → Prop
  | .peak, a, b => b ≤ a
  | .trough, a, b => a ≤ b

instance (k : ExtKind) (a b : ℚ) : Decidable (k.cmp a b) := by
  cases k <;> simp [ExtKind.cmp] <;> infer_instance

/-- Whether index `i` qualifies as an extremum: its value must compare
(≥ for peaks, ≤ for troughs) against the value at every index of the
window `[i-order, i+order]` clamped to the series bounds.  This is the
semantics of `argrelextrema(vals, cmp, order=order)` with the default
`mode='clip'`: each shifted comparison clips out-of-range indices to the
boundary, and a clipped comparison of a value against itself is true for
a reflexive comparator. -/
def isExtremum (vals : List ℚ) (kind : ExtKind) (order i : ℕ) : Bool :=
  decide (∀ j ∈ List.range vals.length,
    i - order ≤ j → j ≤ i + order → kind.cmp (vals.getD i 0) (vals.getD j 0))

/-- The extrema finder: `list(argrelextrema(vals, cmp, order=order)[0])`,
returning qualifying indices in ascending order. -/
def findExtrema (vals : List ℚ) (kind : ExtKind) (order : ℕ) : List ℕ :=
  (List.range vals.length).filter (isExtremum vals kind order)

/-- Double bottom/top tolerance: `0.03 * (11 - sensitivity)`. -/
def dbTolerance (s : ℕ) : ℚ := 0.03 * (11 - (s : ℚ))

/-- Double bottom/top minimum distance:
`max(5, int(window * 0.7 * (11 - sensitivity) / 10))`.  For sensitivity in
`[1,10]` the float product is nonnegative, so `int` truncation is the floor
of the exact value `7·window·(11-s)/100`, which is the natural division
below. -/
def dbMinDistance (w s : ℕ) : ℕ := max 5 (w * 7 * (11 - s) / 100)

/-- Head-and-shoulders tolerance: `0.05 * (11 - sensitivity)`. -/
def hsTolerance (s : ℕ) : ℚ := 0.05 * (11 - (s : ℚ))

/-- Head-and-shoulders minimum distance:
`max(3, int(window * 0.2 * (11 - sensitivity) / 10))`. -/
def hsMinDistance (w s : ℕ) : ℕ := max 3 (w * 2 * (11 - s) / 100)

/-- Triangle minimum duration:
`max(7, int(window * 0.5 * (11 - sensitivity) / 10))`. -/
def triMinDuration (w s : ℕ) : ℕ := max 7 (w * 5 * (11 - s) / 100)

/-- Support/resistance touches required: `max(2, 6 - int(sensitivity / 2))`. -/
def srNumTouches (s : ℕ) : ℕ := max 2 (6 - s / 2)

/-- Support/resistance price threshold: `0.02 * (11 - sensitivity)`. -/
def srPriceThreshold (s : ℕ) : ℚ := 0.02 * (11 - (s : ℚ))

/-- All pairs `(l[i], l[j])` with `i < j`, in the order produced by the
source's nested loops `for i in range(len-1): for j in range(i+1, len)`. -/
def pairsAsc : List ℕ → List (ℕ × ℕ)
  | [] => []
  | x :: xs => (xs.map fun y => (x, y)) ++ pairsAsc xs

/-- All consecutive triples `(l[i], l[i+1], l[i+2])`, in the order of the
source loop `for i in range(len - 2)`.  A list with fewer than three
elements yields no triples, which also models the early
`if len(idx) < 3: return` guards. -/
def triplesConsec : List ℕ → List (ℕ × ℕ × ℕ)
  | a :: b :: c :: rest => (a, b, c) :: triplesConsec (b :: c :: rest)
  | _ => []

/-- Run an `Option Bool`-valued check over all candidates, keeping the
candidates for which the check yields `some true`; a `none` (a raised
exception) aborts the whole run. -/
def filterCandidates (f : α → Option Bool) : List α → Option (List α)
  | [] => some []
  | x :: xs =>
    match f x with
    | none => none
    | some b =>
      match filterCandidates f xs with
      | none => none
      | some r => some (if b then x :: r else r)

/-- Run an `Option (Option β)`-valued candidate processor over all
candidates: outer `none` is a raised exception aborting the run, inner
`none` skips the candidate (`continue`), inner `some y` appends `y`. -/
def collectCandidates (f : α → Option (Option β)) : List α → Option (List β)
  | [] => some []
  | x :: xs =>
    match f x with
    | none => none
    | some r =>
      match collectCandidates f xs with
      | none => none
      | some rest =>
        some (match r with
          | some y => y :: rest
          | none => rest)

/-- Double bottom confirmation (`detect_double_bottom`, final block):
close 5 bars after the second trough must exceed the second trough's low,
falling back to the final close (`close_prices[-1]`, which raises on an
empty series) when `idx2 + 5` is out of bounds. -/
def dbConfirm (closes : List ℚ) (idx2 : ℕ) (price2 : ℚ) : Option Bool :=
  if idx2 + 5 < closes.length then some (decide (price2 < closes.getD (idx2 + 5) 0))
  else closes.getLast?.map fun c => decide (price2 < c)

/-- Double top confirmation: mirror of `dbConfirm` with the close required
to fall below the second top's high. -/
def dtConfirm (closes : List ℚ) (idx2 : ℕ) (price2 : ℚ) : Option Bool :=
  if idx2 + 5 < closes.length then some (decide (closes.getD (idx2 + 5) 0 < price2))
  else closes.getLast?.map fun c => decide (c < price2)

/-- Candidate check of `detect_double_bottom` for one pair of trough
indices, mirroring the body of the nested loop. -/
def dbCandidate (lows closes : List ℚ) (tol : ℚ) (minDist : ℕ) (p : ℕ × ℕ) :
    Option Bool :=
  if p.2 - p.1 < minDist then some false
  else
    let price1 := lows.getD p.1 0
    let price2 := lows.getD p.2 0
    if tol < |price1 - price2| / price1 then some false
    else
      match listMaxQ (sliceL closes p.1 p.2) with
      | none => none
      | some maxBetween =>
        if (maxBetween - price1) / price1 < 0.02 ∨ (maxBetween - price2) / price2 < 0.02 then
          some false
        else dbConfirm closes p.2 price2

/-- Candidate check of `detect_double_top` for one pair of peak indices. -/
def dtCandidate (highs closes : List ℚ) (tol : ℚ) (minDist : ℕ) (p : ℕ × ℕ) :
    Option Bool :=
  if p.2 - p.1 < minDist then some false
  else
    let price1 := highs.getD p.1 0
    let price2 := highs.getD p.2 0
    if tol < |price1 - price2| / price1 then some false
    else
      match listMinQ (sliceL closes p.1 p.2) with
      | none => none
      | some minBetween =>
        if (price1 - minBetween) / price1 < 0.02 ∨ (price2 - minBetween) / price2 < 0.02 then
          some false
        else dtConfirm closes p.2 price2

/-- Embedding of `detect_double_bottom(data, sensitivity, window)`. -/
def detect_double_bottom (data : List Bar) (sensitivity window : ℕ) :
    Option (List (ℕ × ℕ)) :=
  let tolerance := dbTolerance sensitivity
  let minDistance := dbMinDistance window sensitivity
  let closes := closesL data
  let lows := lowsL data
  let order := max (window / 4) 1
  let minIdx := findExtrema lows .trough order
  filterCandidates (dbCandidate lows closes tolerance minDistance) (pairsAsc minIdx)

/-- Embedding of `detect_double_top(data, sensitivity, window)`. -/
def detect_double_top (data : List Bar) (sensitivity window : ℕ) :
    Option (List (ℕ × ℕ)) :=
  let tolerance := dbTolerance sensitivity
  let minDistance := dbMinDistance window sensitivity
  let closes := closesL data
  let highs := highsL data
  let order := max (window / 4) 1
  let maxIdx := findExtrema highs .peak order
  filterCandidates (dtCandidate highs closes tolerance minDistance) (pairsAsc maxIdx)

/-- Neckline troughs of a head-and-shoulders candidate:
`np.argmin(lows[p1:p2]) + p1` and `np.argmin(lows[p2:p3]) + p2`
(`np.argmin` raises on an empty slice). -/
def hsNeckTroughs (lows : List ℚ) (p1 p2 p3 : ℕ) : Option (ℕ × ℕ) :=
  match npArgmin (sliceL lows p1 p2), npArgmin (sliceL lows p2 p3) with
  | some i, some j => some (p1 + i, p2 + j)
  | _, _ => none

/-- Neckline peaks of an inverse head-and-shoulders candidate:
`np.argmax(highs[t1:t2]) + t1` and `np.argmax(highs[t2:t3]) + t2`. -/
def ihsNeckPeaks (highs : List ℚ) (t1 t2 t3 : ℕ) : Option (ℕ × ℕ) :=
  match npArgmax (sliceL highs t1 t2), npArgmax (sliceL highs t2 t3) with
  | some i, some j => some (t1 + i, t2 + j)
  | _, _ => none

/-- Head-and-shoulders confirmation (`detect_head_and_shoulders`,
lines 176-182): when `peak3_idx + 5` is in bounds the close there must
fall below the neckline average `(trough1 + trough2) / 2`; otherwise the
series' final close is compared against the close at `peak3_idx` (not
against the neckline). -/
def hsConfirm (closes : List ℚ) (p3 : ℕ) (trough1 trough2 : ℚ) : Option Bool :=
  if p3 + 5 < closes.length then
    some (decide (closes.getD (p3 + 5) 0 < (trough1 + trough2) / 2))
  else closes.getLast?.map fun c => decide (c < closes.getD p3 0)

/-- Inverse head-and-shoulders confirmation: mirror of `hsConfirm` with
rises instead of falls. -/
def ihsConfirm (closes : List ℚ) (t3 : ℕ) (peak1 peak2 : ℚ) : Option Bool :=
  if t3 + 5 < closes.length then
    some (decide ((peak1 + peak2) / 2 < closes.getD (t3 + 5) 0))
  else closes.getLast?.map fun c => decide (closes.getD t3 0 < c)

/-- Candidate processing of `detect_head_and_shoulders` for one
consecutive triple of peak indices: inner `none` is a `continue`, outer
`none` a raised exception, `some (some pat)` an appended pattern. -/
def hsCandidate (highs lows closes : List ℚ) (tol : ℚ) (minDist : ℕ)
    (t : ℕ × ℕ × ℕ) : Option (Option (ℕ × ℕ × ℕ × ℕ × ℕ)) :=
  let p1 := t.1
  let p2 := t.2.1
  let p3 := t.2.2
  if p2 - p1 < minDist ∨ p3 - p2 < minDist then some none
  else
    let peak1 := highs.getD p1 0
    let peak2 := highs.getD p2 0
    let peak3 := highs.getD p3 0
    if peak2 ≤ peak1 ∨ peak2 ≤ peak3 then some none
    else if tol < |peak1 - peak3| / peak1 then some none
    else
      match hsNeckTroughs lows p1 p2 p3 with
      | none => none
      | some (t1i, t2i) =>
        let trough1 := lows.getD t1i 0
        let trough2 := lows.getD t2i 0
        if tol < |trough1 - trough2| / trough1 then some none
        else
          match hsConfirm closes p3 trough1 trough2 with
          | none => none
          | some b => some (if b then some (p1, t1i, p2, t2i, p3) else none)

/-- Candidate processing of `detect_inverse_head_and_shoulders` for one
consecutive triple of trough indices. -/
def ihsCandidate (highs lows closes : List ℚ) (tol : ℚ) (minDist : ℕ)
    (t : ℕ × ℕ × ℕ) : Option (Option (ℕ × ℕ × ℕ × ℕ × ℕ)) :=
  let t1 := t.1
  let t2 := t.2.1
  let t3 := t.2.2
  if t2 - t1 < minDist ∨ t3 - t2 < minDist then some none
  else
    let trough1 := lows.getD t1 0
    let trough2 := lows.getD t2 0
    let trough3 := lows.getD t3 0
    if trough1 ≤ trough2 ∨ trough3 ≤ trough2 then some none
    else if tol < |trough1 - trough3| / trough1 then some none
    else
      match ihsNeckPeaks highs t1 t2 t3 with
      | none => none
      | some (p1i, p2i) =>
        let peak1 := highs.getD p1i 0
        let peak2 := highs.getD p2i 0
        if tol < |peak1 - peak2| / peak1 then some none
        else
          match ihsConfirm closes t3 peak1 peak2 with
          | none => none
          | some b => some (if b then some (t1, p1i, t2, p2i, t3) else none)

/-- Embedding of `detect_head_and_shoulders(data, sensitivity, window)`.
Emitted patterns are `(peak1, trough1, peak2, trough2, peak3)` index
tuples. -/
def detect_head_and_shoulders (data : List Bar) (sensitivity window : ℕ) :
    Option (List (ℕ × ℕ × ℕ × ℕ × ℕ)) :=
  let tolerance := hsTolerance sensitivity
  let minDistance := hsMinDistance window sensitivity
  let highs := highsL data
  let lows := lowsL data
  let closes := closesL data
  let order := max (window / 6) 1
  let maxIdx := findExtrema highs .peak order
  collectCandidates (hsCandidate highs lows closes tolerance minDistance)
    (triplesConsec maxIdx)

/-- Embedding of `detect_inverse_head_and_shoulders(data, sensitivity,
window)`.  Emitted patterns are `(trough1, peak1, trough2, peak2, trough3)`
index tuples. -/
def detect_inverse_head_and_shoulders (data : List Bar) (sensitivity window : ℕ) :
    Option (List (ℕ × ℕ × ℕ × ℕ × ℕ)) :=
  let tolerance := hsTolerance sensitivity
  let minDistance := hsMinDistance window sensitivity
  let highs := highsL data
  let lows := lowsL data
  let closes := closesL data
  let order := max (window / 6) 1
  let minIdx := findExtrema lows .trough order
  collectCandidates (ihsCandidate highs lows closes tolerance minDistance)
    (triplesConsec minIdx)

/-- Triangle variants. -/
inductive TriKind where
  | symmetric
  | ascending
  | descending
deriving DecidableEq, Repr

/-- One triangle occurrence, mirroring the emitted dictionary.  The
`convergeX` field holds `int(x_converge)` (truncation of a value that is
nonnegative at every reachable emission, hence the floor). -/
structure Triangle where
  kind : TriKind
  points : List ℕ
  convergeX : ℤ
  convergeY : ℚ
  breakout : Bool
deriving DecidableEq, Repr

/-- Symmetric triangle breakout test: when `peak3_idx + 5` is in bounds the
close there must deviate more than 2% from the extrapolated peak trend
line, otherwise `breakout = False` without any comparison. -/
def triSymBreakout (highs closes : List ℚ) (peak1 peakSlope : ℚ) (p1 p3 : ℕ) : Bool :=
  if p3 + 5 < highs.length then
    let expected := peak1 + peakSlope * ((p3 : ℚ) + 5 - (p1 : ℚ))
    decide (0.02 < |closes.getD (p3 + 5) 0 - expected| / expected)
  else false

/-- Ascending triangle breakout test: close 5 bars after the last peak must
exceed the mean resistance, with `breakout = False` (no comparison) when
that index is out of bounds. -/
def triAscBreakout (highs closes : List ℚ) (p3 : ℕ) (resistance : ℚ) : Bool :=
  if p3 + 5 < highs.length then decide (resistance < closes.getD (p3 + 5) 0)
  else false

/-- Descending triangle breakout test: close 5 bars after the last trough
must fall below the mean support, with `breakout = False` (no comparison)
when that index is out of bounds. -/
def triDescBreakout (lows closes : List ℚ) (t3 : ℕ) (support : ℚ) : Bool :=
  if t3 + 5 < lows.length then decide (closes.getD (t3 + 5) 0 < support)
  else false

/-- Symmetric-triangle candidate processing for one consecutive triple of
peak indices (`none` is a `continue`; this branch performs no fallible
numpy calls, so no exception layer is needed). -/
def triSymCandidate (highs lows closes : List ℚ) (minIdx : List ℕ)
    (minDuration window : ℕ) (t : ℕ × ℕ × ℕ) : Option Triangle :=
  let p1 := t.1
  let p2 := t.2.1
  let p3 := t.2.2
  if p3 - p1 < minDuration then none
  else
    let peak1 := highs.getD p1 0
    let peak2 := highs.getD p2 0
    let peak3 := highs.getD p3 0
    if peak1 ≤ peak2 ∨ peak2 ≤ peak3 then none
    else
      let troughs := minIdx.filter fun x => decide (p1 < x) && decide (x < p3)
      if troughs.length < 2 then none
      else
        let t1i := troughs.headD 0
        let t2i := troughs.getLastD 0
        let trough1 := lows.getD t1i 0
        let trough2 := lows.getD t2i 0
        if trough2 ≤ trough1 then none
        else
          let peakSlope := lineSlope peak1 peak3 p1 p3
          let troughSlope := lineSlope trough1 trough2 t1i t2i
          if 0 ≤ peakSlope * troughSlope then none
          else if 1 / 10000000000 < |peakSlope - troughSlope| then
            let xConverge :=
              (trough1 - peak1 - troughSlope * (t1i : ℚ) + peakSlope * (p1 : ℚ)) /
                (peakSlope - troughSlope)
            let yConverge := peak1 + peakSlope * (xConverge - (p1 : ℚ))
            if xConverge < (p3 : ℚ) ∨ (p3 : ℚ) + (window : ℚ) < xConverge then none
            else
              some ⟨.symmetric, [p1, t1i, p2, t2i, p3], ⌊xConverge⌋, yConverge,
                triSymBreakout highs closes peak1 peakSlope p1 p3⟩
          else none

/-- Ascending-triangle candidate processing for one consecutive triple of
peak indices. -/
def triAscCandidate (highs lows closes : List ℚ) (minIdx : List ℕ)
    (minDuration : ℕ) (t : ℕ × ℕ × ℕ) : Option Triangle :=
  let p1 := t.1
  let p2 := t.2.1
  let p3 := t.2.2
  if p3 - p1 < minDuration then none
  else
    let peakPrices := [highs.getD p1 0, highs.getD p2 0, highs.getD p3 0]
    if stdRatioGT peakPrices 0.03 then none
    else
      let troughs := minIdx.filter fun x => decide (p1 < x) && decide (x < p3)
      if troughs.length < 2 then none
      else
        let troughPrices := troughs.map fun i => lows.getD i 0
        if !strictIncr troughPrices then none
        else
          some ⟨.ascending, [p1, troughs.headD 0, p2, troughs.getLastD 0, p3],
            ((p3 : ℤ) + (minDuration : ℤ)), meanQ peakPrices,
            triAscBreakout highs closes p3 (meanQ peakPrices)⟩

/-- Descending-triangle candidate processing for one consecutive triple of
trough indices.  The emitted points list is, as in the source,
`[peaks[0], troughs[0], peaks[-1], troughs[1], troughs[-1]]`. -/
def triDescCandidate (highs lows closes : List ℚ) (maxIdx : List ℕ)
    (minDuration : ℕ) (t : ℕ × ℕ × ℕ) : Option Triangle :=
  let t1 := t.1
  let t2 := t.2.1
  let t3 := t.2.2
  if t3 - t1 < minDuration then none
  else
    let troughPrices := [lows.getD t1 0, lows.getD t2 0, lows.getD t3 0]
    if stdRatioGT troughPrices 0.03 then none
    else
      let peaks := maxIdx.filter fun x => decide (t1 < x) && decide (x < t3)
      if peaks.length < 2 then none
      else
        let peakPrices := peaks.map fun i => highs.getD i 0
        if !strictDecr peakPrices then none
        else
          some ⟨.descending, [peaks.headD 0, t1, peaks.getLastD 0, t2, t3],
            ((t3 : ℤ) + (minDuration : ℤ)), meanQ troughPrices,
            triDescBreakout lows closes t3 (meanQ troughPrices)⟩

/-- Embedding of `detect_triangle(data, sensitivity, window)`.  The local
`min_points = 4 + sensitivity` of the source is dead code (never read) and
is omitted.  The three variant scans append to one list in source order:
symmetric, then ascending, then descending. -/
def detect_triangle (data : List Bar) (sensitivity window : ℕ) : List Triangle :=
  let minDuration := triMinDuration window sensitivity
  let highs := highsL data
  let lows := lowsL data
  let closes := closesL data
  let order := max (window / 8) 1
  let maxIdx := findExtrema highs .peak order
  let minIdx := findExtrema lows .trough order
  if maxIdx.length < 3 ∨ minIdx.length < 3 then []
  else
    ((triplesConsec maxIdx).filterMap
        (triSymCandidate highs lows closes minIdx minDuration window)) ++
      ((triplesConsec maxIdx).filterMap
        (triAscCandidate highs lows closes minIdx minDuration)) ++
      ((triplesConsec minIdx).filterMap
        (triDescCandidate highs lows closes maxIdx minDuration))

/-- Touch counting of `find_support_resistance`: the number of indices
other than `idx` whose value approaches `price` within the relative
threshold. -/
def srTouches (vals : List ℚ) (price : ℚ) (idx : ℕ) (thr : ℚ) : ℕ :=
  ((List.range vals.length).filter fun i =>
    decide (i ≠ idx) && decide (|vals.getD i 0 - price| / price < thr)).length

/-- Embedding of `find_support_resistance(data, sensitivity, window)`:
confirmed support indices paired with confirmed resistance indices.  The
local `close_prices` of the source is dead code (never read) and is
omitted. -/
def find_support_resistance (data : List Bar) (sensitivity window : ℕ) :
    List ℕ × List ℕ :=
  let numTouches := srNumTouches sensitivity
  let thr := srPriceThreshold sensitivity
  let highs := highsL data
  let lows := lowsL data
  let order := max (window / 5) 1
  let resistanceIdx := findExtrema highs .peak order
  let supportIdx := findExtrema lows .trough order
  (supportIdx.filter fun idx => decide (numTouches ≤ srTouches lows (lows.getD idx 0) idx thr),
   resistanceIdx.filter fun idx => decide (numTouches ≤ srTouches highs (highs.getD idx 0) idx thr))

/-- Synthetic double-bottom series from the specification's testable
properties: two troughs of value 5 at indices 5 and 17 separated by a peak
of 11, with every bar flat (High = Low = Close). -/
def dbExample : List Bar :=
  [10, 9, 8, 7, 6, 5, 6, 7, 8, 9, 10, 11, 10, 9, 8, 7, 6, 5, 6, 8, 10, 12].map
    fun q => ⟨q, q, q⟩

/-- Ten-bar series whose peak triple `(1, 4, 7)` passes every geometric
head-and-shoulders test while the confirmation falls in the
out-of-bounds fallback branch: the final close (4) is below the neckline
average (9/2) but not below the close at the third peak (3). -/
def hsCexBars : List Bar :=
  [⟨10, 9, 10⟩, ⟨50, 9, 10⟩, ⟨10, 4, 10⟩, ⟨10, 9, 10⟩, ⟨80, 9, 10⟩,
   ⟨10, 9, 10⟩, ⟨10, 5, 10⟩, ⟨50, 3, 3⟩, ⟨10, 9, 10⟩, ⟨10, 4, 4⟩]

/-- Variant of `hsCexBars` whose close at the third peak is 5, so the
fallback confirmation (final close 4 < 5) succeeds and the pattern is
emitted. -/
def hsWitBars : List Bar :=
  [⟨10, 9, 10⟩, ⟨50, 9, 10⟩, ⟨10, 4, 10⟩, ⟨10, 9, 10⟩, ⟨80, 9, 10⟩,
   ⟨10, 9, 10⟩, ⟨10, 5, 10⟩, ⟨50, 3, 5⟩, ⟨10, 4, 4⟩]

/-- Twelve-bar series producing one ascending triangle whose last peak
(index 8) is within 5 bars of the series end, while the final close (195)
exceeds the mean resistance (100). -/
def ascTriBars : List Bar :=
  [⟨90, 60, 70⟩, ⟨100, 59, 70⟩, ⟨90, 40, 70⟩, ⟨91, 45, 70⟩, ⟨100, 44, 70⟩,
   ⟨92, 45, 70⟩, ⟨93, 50, 70⟩, ⟨94, 49, 70⟩, ⟨100, 62, 70⟩, ⟨99, 63, 70⟩,
   ⟨98, 64, 70⟩, ⟨200, 65, 195⟩]

/-- Ten-bar series producing one descending triangle: troughs at indices
1, 4, 8 (all at price 50) and intervening peaks at indices 2 and 6 with
falling highs 100, 90. -/
def descTriBars : List Bar :=
  [⟨70, 60, 62⟩, ⟨65, 50, 62⟩, ⟨100, 58, 62⟩, ⟨71, 59, 62⟩, ⟨72, 50, 62⟩,
   ⟨73, 56, 62⟩, ⟨90, 57, 62⟩, ⟨74, 59, 62⟩, ⟨66, 50, 62⟩, ⟨75, 60, 62⟩]

/-- Constant-price series: `n` bars all of whose prices equal `c`. -/
def constBars (n : ℕ) (c : ℚ) : List Bar := List.replicate n ⟨c, c, c⟩


theorem length_highsL (data : List Bar) : (highsL data).length = data.length :=
  List.length_map ..

theorem length_lowsL (data : List Bar) : (lowsL data).length = data.length :=
  List.length_map ..

theorem length_closesL (data : List Bar) : (closesL data).length = data.length :=
  List.length_map ..

theorem findExtrema_sorted (v : List ℚ) (k : ExtKind) (o : ℕ) :
    (findExtrema v k o).Pairwise (· < ·) :=
  (List.pairwise_lt_range _).sublist (List.filter_sublist _)

theorem mem_findExtrema {v : List ℚ} {k : ExtKind} {o i : ℕ} :
    i ∈ findExtrema v k o ↔
      i < v.length ∧ ∀ j, i - o ≤ j → j ≤ i + o → j < v.length →
        k.cmp (v.getD i 0) (v.getD j 0) := by
  unfold findExtrema isExtremum
  simp only [List.mem_filter, List.mem_range, decide_eq_true_eq]
  constructor
  · rintro ⟨hi, h⟩
    exact ⟨hi, fun j h1 h2 hj => h j hj h1 h2⟩
  · rintro ⟨hi, h⟩
    exact ⟨hi, fun j hj h1 h2 => h j h1 h2 hj⟩

theorem mem_findExtrema_lt {v : List ℚ} {k : ExtKind} {o i : ℕ}
    (h : i ∈ findExtrema v k o) : i < v.length :=
  (mem_findExtrema.1 h).1

theorem mem_pairsAsc {l : List ℕ} (hl : l.Pairwise (· < ·)) {a b : ℕ} :
    (a, b) ∈ pairsAsc l ↔ a ∈ l ∧ b ∈ l ∧ a < b := by
  induction l with
  | nil => simp [pairsAsc]
  | cons x xs ih =>
    rcases List.pairwise_cons.1 hl with ⟨hx, hxs⟩
    simp only [pairsAsc, List.mem_append, List.mem_map, List.mem_cons, Prod.mk.injEq]
    constructor
    · rintro (⟨y, hy, rfl, rfl⟩ | hmem)
      · exact ⟨Or.inl rfl, Or.inr hy, hx y hy⟩
      · rcases (ih hxs).1 hmem with ⟨ha, hb, hab⟩
        exact ⟨Or.inr ha, Or.inr hb, hab⟩
    · rintro ⟨ha | ha, hb | hb, hab⟩
      · omega
      · subst ha
        exact Or.inl ⟨b, hb, rfl, rfl⟩
      · subst hb
        exact absurd (hx a ha) (by omega)
      · exact Or.inr ((ih hxs).2 ⟨ha, hb, hab⟩)

theorem mem_triplesConsec {l : List ℕ} {t : ℕ × ℕ × ℕ}
    (h : t ∈ triplesConsec l) : t.1 ∈ l ∧ t.2.1 ∈ l ∧ t.2.2 ∈ l := by
  induction l with
  | nil => simp [triplesConsec] at h
  | cons x xs ih =>
    match xs, h with
    | [], h => simp [triplesConsec] at h
    | [y], h => simp [triplesConsec] at h
    | y :: z :: rest, h =>
      rcases List.mem_cons.1 h with h | h
      · subst h
        exact ⟨List.mem_cons_self _ _, List.mem_cons_of_mem _ (List.mem_cons_self _ _),
          List.mem_cons_of_mem _ (List.mem_cons_of_mem _ (List.mem_cons_self _ _))⟩
      · rcases ih h with ⟨h1, h2, h3⟩
        exact ⟨List.mem_cons_of_mem _ h1, List.mem_cons_of_mem _ h2,
          List.mem_cons_of_mem _ h3⟩

theorem mem_triplesConsec_lt {l : List ℕ} (hl : l.Pairwise (· < ·)) {t : ℕ × ℕ × ℕ}
    (h : t ∈ triplesConsec l) : t.1 < t.2.1 ∧ t.2.1 < t.2.2 := by
  induction l with
  | nil => simp [triplesConsec] at h
  | cons x xs ih =>
    match xs, hl, h with
    | [], _, h => simp [triplesConsec] at h
    | [y], _, h => simp [triplesConsec] at h
    | y :: z :: rest, hl, h =>
      rcases List.mem_cons.1 h with h | h
      · subst h
        rcases List.pairwise_cons.1 hl with ⟨hx, hrest⟩
        rcases List.pairwise_cons.1 hrest with ⟨hy, _⟩
        exact ⟨hx y (List.mem_cons_self _ _), hy z (List.mem_cons_self _ _)⟩
      · exact ih (List.pairwise_cons.1 hl).2 h

theorem filterCandidates_isSome {α : Type} (f : α → Option Bool) (cs : List α)
    (h : ∀ c ∈ cs, f c ≠ none) : ∃ l, filterCandidates f cs = some l := by
  induction cs with
  | nil => exact ⟨[], rfl⟩
  | cons x xs ih =>
    rcases ih fun c hc => h c (List.mem_cons_of_mem _ hc) with ⟨r, hr⟩
    match hfx : f x with
    | none => exact absurd hfx (h x (List.mem_cons_self _ _))
    | some b =>
      cases b with
      | false => exact ⟨r, by simp [filterCandidates, hfx, hr]⟩
      | true => exact ⟨x :: r, by simp [filterCandidates, hfx, hr]⟩

theorem mem_of_filterCandidates {α : Type} {f : α → Option Bool}
    {cs : List α} {l : List α} (h : filterCandidates f cs = some l) (x : α) :
    x ∈ l ↔ x ∈ cs ∧ f x = some true := by
  induction cs generalizing l with
  | nil =>
    simp only [filterCandidates, Option.some.injEq] at h
    subst h
    simp
  | cons c cs ih =>
    simp only [filterCandidates] at h
    match hfc : f c with
    | none => simp [hfc] at h
    | some b =>
      rw [hfc] at h
      match hrec : filterCandidates f cs with
      | none => simp [hrec] at h
      | some r =>
        rw [hrec] at h
        simp only [Option.some.injEq] at h
        subst h
        cases b with
        | true =>
          simp only [if_pos trivial, List.mem_cons, ih hrec]
          constructor
          · rintro (rfl | ⟨h1, h2⟩)
            · exact ⟨Or.inl rfl, hfc⟩
            · exact ⟨Or.inr h1, h2⟩
          · rintro ⟨rfl | h1, h2⟩
            · exact Or.inl rfl
            · exact Or.inr ⟨h1, h2⟩
        | false =>
          rw [if_neg (by simp)]
          rw [ih hrec]
          constructor
          · rintro ⟨h1, h2⟩
            exact ⟨List.mem_cons_of_mem _ h1, h2⟩
          · rintro ⟨h1, h2⟩
            rcases List.mem_cons.1 h1 with rfl | h1
            · rw [hfc] at h2
              simp at h2
            · exact ⟨h1, h2⟩

theorem filterCandidates_all_false {α : Type} {f : α → Option Bool} {cs : List α}
    (h : ∀ c ∈ cs, f c = some false) : filterCandidates f cs = some [] := by
  induction cs with
  | nil => rfl
  | cons x xs ih =>
    have hx := h x (List.mem_cons_self _ _)
    have hxs := ih fun c hc => h c (List.mem_cons_of_mem _ hc)
    simp [filterCandidates, hx, hxs]

theorem collectCandidates_isSome {α β : Type} (f : α → Option (Option β)) (cs : List α)
    (h : ∀ c ∈ cs, f c ≠ none) : ∃ l, collectCandidates f cs = some l := by
  induction cs with
  | nil => exact ⟨[], rfl⟩
  | cons x xs ih =>
    rcases ih fun c hc => h c (List.mem_cons_of_mem _ hc) with ⟨r, hr⟩
    match hfx : f x with
    | none => exact absurd hfx (h x (List.mem_cons_self _ _))
    | some b =>
      cases b with
      | none => exact ⟨r, by simp [collectCandidates, hfx, hr]⟩
      | some y => exact ⟨y :: r, by simp [collectCandidates, hfx, hr]⟩

theorem mem_of_collectCandidates {α β : Type} {f : α → Option (Option β)}
    {cs : List α} {l : List β} (h : collectCandidates f cs = some l) (y : β) :
    y ∈ l ↔ ∃ c ∈ cs, f c = some (some y) := by
  induction cs generalizing l with
  | nil =>
    simp only [collectCandidates, Option.some.injEq] at h
    subst h
    simp
  | cons c cs ih =>
    simp only [collectCandidates] at h
    match hfc : f c with
    | none => simp [hfc] at h
    | some b =>
      rw [hfc] at h
      match hrec : collectCandidates f cs with
      | none => simp [hrec] at h
      | some r =>
        rw [hrec] at h
        simp only [Option.some.injEq] at h
        subst h
        cases b with
        | none =>
          rw [ih hrec]
          constructor
          · rintro ⟨a, ha, hfa⟩
            exact ⟨a, List.mem_cons_of_mem _ ha, hfa⟩
          · rintro ⟨a, ha, hfa⟩
            rcases List.mem_cons.1 ha with rfl | ha
            · rw [hfc] at hfa
              simp at hfa
            · exact ⟨a, ha, hfa⟩
        | some z =>
          simp only [List.mem_cons, ih hrec]
          constructor
          · rintro (rfl | ⟨a, ha, hfa⟩)
            · exact ⟨c, Or.inl rfl, hfc⟩
            · exact ⟨a, Or.inr ha, hfa⟩
          · rintro ⟨a, rfl | ha, hfa⟩
            · rw [hfc] at hfa
              simp only [Option.some.injEq] at hfa
              exact Or.inl hfa.symm
            · exact Or.inr ⟨a, ha, hfa⟩

theorem collectCandidates_all_none {α β : Type} {f : α → Option (Option β)}
    {cs : List α} (h : ∀ c ∈ cs, f c = some none) :
    collectCandidates f cs = some ([] : List β) := by
  induction cs with
  | nil => rfl
  | cons x xs ih =>
    have hx := h x (List.mem_cons_self _ _)
    have hxs := ih fun c hc => h c (List.mem_cons_of_mem _ hc)
    simp [collectCandidates, hx, hxs]

theorem sliceL_ne_nil {l : List ℚ} {a b : ℕ} (hab : a < b) (ha : a < l.length) :
    sliceL l a b ≠ [] := by
  unfold sliceL
  intro hcon
  have h1 : ((l.drop a).take (b - a)).length = 0 := by rw [hcon]; rfl
  rw [List.length_take, List.length_drop] at h1
  omega

theorem listMaxQ_isSome {l : List ℚ} (h : l ≠ []) : ∃ m, listMaxQ l = some m := by
  cases l with
  | nil => exact absurd rfl h
  | cons x xs => exact ⟨xs.foldl max x, rfl⟩

theorem listMinQ_isSome {l : List ℚ} (h : l ≠ []) : ∃ m, listMinQ l = some m := by
  cases l with
  | nil => exact absurd rfl h
  | cons x xs => exact ⟨xs.foldl min x, rfl⟩

theorem getLast?_isSome {l : List ℚ} (h : l ≠ []) : ∃ c, l.getLast? = some c := by
  cases hl : l.getLast? with
  | none => exact absurd (List.getLast?_eq_none_iff.1 hl) h
  | some c => exact ⟨c, rfl⟩

theorem foldl_min_mem (xs : List ℚ) (x : ℚ) : xs.foldl min x = x ∨ xs.foldl min x ∈ xs := by
  induction xs generalizing x with
  | nil => exact Or.inl rfl
  | cons y ys ih =>
    rcases ih (min x y) with h | h
    · rcases min_choice x y with hm | hm
      · exact Or.inl (by rw [List.foldl_cons, h, hm])
      · exact Or.inr (by rw [List.foldl_cons, h, hm]; exact List.mem_cons_self _ _)
    · exact Or.inr (List.mem_cons_of_mem _ h)

theorem foldl_max_mem (xs : List ℚ) (x : ℚ) : xs.foldl max x = x ∨ xs.foldl max x ∈ xs := by
  induction xs generalizing x with
  | nil => exact Or.inl rfl
  | cons y ys ih =>
    rcases ih (max x y) with h | h
    · rcases max_choice x y with hm | hm
      · exact Or.inl (by rw [List.foldl_cons, h, hm])
      · exact Or.inr (by rw [List.foldl_cons, h, hm]; exact List.mem_cons_self _ _)
    · exact Or.inr (List.mem_cons_of_mem _ h)

theorem listMinQ_mem {l : List ℚ} {m : ℚ} (h : listMinQ l = some m) : m ∈ l := by
  cases l with
  | nil => simp [listMinQ] at h
  | cons x xs =>
    simp only [listMinQ, Option.some.injEq] at h
    subst h
    rcases foldl_min_mem xs x with h | h
    · rw [h]; exact List.mem_cons_self _ _
    · exact List.mem_cons_of_mem _ h

theorem listMaxQ_mem {l : List ℚ} {m : ℚ} (h : listMaxQ l = some m) : m ∈ l := by
  cases l with
  | nil => simp [listMaxQ] at h
  | cons x xs =>
    simp only [listMaxQ, Option.some.injEq] at h
    subst h
    rcases foldl_max_mem xs x with h | h
    · rw [h]; exact List.mem_cons_self _ _
    · exact List.mem_cons_of_mem _ h

theorem npArgmin_lt_length {l : List ℚ} {i : ℕ} (h : npArgmin l = some i) :
    i < l.length := by
  unfold npArgmin at h
  match hm : listMinQ l with
  | none => rw [hm] at h; cases h
  | some m =>
    rw [hm] at h
    simp only [Option.some.injEq] at h
    subst h
    exact List.indexOf_lt_length.2 (listMinQ_mem hm)

theorem npArgmax_lt_length {l : List ℚ} {i : ℕ} (h : npArgmax l = some i) :
    i < l.length := by
  unfold npArgmax at h
  match hm : listMaxQ l with
  | none => rw [hm] at h; cases h
  | some m =>
    rw [hm] at h
    simp only [Option.some.injEq] at h
    subst h
    exact List.indexOf_lt_length.2 (listMaxQ_mem hm)

theorem npArgmin_isSome {l : List ℚ} (h : l ≠ []) : ∃ i, npArgmin l = some i := by
  rcases listMinQ_isSome h with ⟨m, hm⟩
  exact ⟨l.indexOf m, by simp [npArgmin, hm]⟩

theorem npArgmax_isSome {l : List ℚ} (h : l ≠ []) : ∃ i, npArgmax l = some i := by
  rcases listMaxQ_isSome h with ⟨m, hm⟩
  exact ⟨l.indexOf m, by simp [npArgmax, hm]⟩

theorem sliceL_length (l : List ℚ) (a b : ℕ) :
    (sliceL l a b).length = min (b - a) (l.length - a) := by
  unfold sliceL
  rw [List.length_take, List.length_drop]

theorem getLast?_eq_getD_last {l : List ℚ} (h : l ≠ []) :
    l.getLast? = some (l.getD (l.length - 1) 0) := by
  have hlt : l.length - 1 < l.length := by
    cases l with
    | nil => exact absurd rfl h
    | cons x xs => simp
  rw [List.getLast?_eq_getElem?, List.getElem?_eq_getElem hlt, List.getD_eq_getElem?_getD,
    List.getElem?_eq_getElem hlt]
  rfl

theorem dbConfirm_ne_none {closes : List ℚ} {i : ℕ} {p : ℚ} (h : closes ≠ []) :
    dbConfirm closes i p ≠ none := by
  unfold dbConfirm
  by_cases h5 : i + 5 < closes.length
  · simp [h5]
  · rw [if_neg h5, getLast?_eq_getD_last h]
    simp

theorem dtConfirm_ne_none {closes : List ℚ} {i : ℕ} {p : ℚ} (h : closes ≠ []) :
    dtConfirm closes i p ≠ none := by
  unfold dtConfirm
  by_cases h5 : i + 5 < closes.length
  · simp [h5]
  · rw [if_neg h5, getLast?_eq_getD_last h]
    simp

theorem hsConfirm_ne_none {closes : List ℚ} {i : ℕ} {t1 t2 : ℚ} (h : closes ≠ []) :
    hsConfirm closes i t1 t2 ≠ none := by
  unfold hsConfirm
  by_cases h5 : i + 5 < closes.length
  · simp [h5]
  · rw [if_neg h5, getLast?_eq_getD_last h]
    simp

theorem ihsConfirm_ne_none {closes : List ℚ} {i : ℕ} {p1 p2 : ℚ} (h : closes ≠ []) :
    ihsConfirm closes i p1 p2 ≠ none := by
  unfold ihsConfirm
  by_cases h5 : i + 5 < closes.length
  · simp [h5]
  · rw [if_neg h5, getLast?_eq_getD_last h]
    simp

theorem dbCandidate_ne_none {lows closes : List ℚ} {tol : ℚ} {md : ℕ} {a b : ℕ}
    (hab : a < b) (ha : a < closes.length) :
    dbCandidate lows closes tol md (a, b) ≠ none := by
  have hne : closes ≠ [] := List.ne_nil_of_length_pos (by omega)
  unfold dbCandidate
  dsimp only
  by_cases h1 : b - a < md
  · rw [if_pos h1]
    simp
  · rw [if_neg h1]
    by_cases h2 : tol < |lows.getD a 0 - lows.getD b 0| / lows.getD a 0
    · rw [if_pos h2]
      simp
    · rw [if_neg h2]
      rcases listMaxQ_isSome (sliceL_ne_nil hab ha) with ⟨m, hm⟩
      rw [hm]
      dsimp only
      by_cases h3 : (m - lows.getD a 0) / lows.getD a 0 < 0.02 ∨
          (m - lows.getD b 0) / lows.getD b 0 < 0.02
      · rw [if_pos h3]
        simp
      · rw [if_neg h3]
        exact dbConfirm_ne_none hne

theorem dtCandidate_ne_none {highs closes : List ℚ} {tol : ℚ} {md : ℕ} {a b : ℕ}
    (hab : a < b) (ha : a < closes.length) :
    dtCandidate highs closes tol md (a, b) ≠ none := by
  have hne : closes ≠ [] := List.ne_nil_of_length_pos (by omega)
  unfold dtCandidate
  dsimp only
  by_cases h1 : b - a < md
  · rw [if_pos h1]
    simp
  · rw [if_neg h1]
    by_cases h2 : tol < |highs.getD a 0 - highs.getD b 0| / highs.getD a 0
    · rw [if_pos h2]
      simp
    · rw [if_neg h2]
      rcases listMinQ_isSome (sliceL_ne_nil hab ha) with ⟨m, hm⟩
      rw [hm]
      dsimp only
      by_cases h3 : (highs.getD a 0 - m) / highs.getD a 0 < 0.02 ∨
          (highs.getD b 0 - m) / highs.getD b 0 < 0.02
      · rw [if_pos h3]
        simp
      · rw [if_neg h3]
        exact dtConfirm_ne_none hne

theorem hsCandidate_ne_none {highs lows closes : List ℚ} {tol : ℚ} {md : ℕ}
    {p1 p2 p3 : ℕ} (h12 : p1 < p2) (h23 : p2 < p3)
    (h1l : p1 < lows.length) (h2l : p2 < lows.length) (hc : closes ≠ []) :
    hsCandidate highs lows closes tol md (p1, p2, p3) ≠ none := by
  unfold hsCandidate
  dsimp only
  by_cases h1 : p2 - p1 < md ∨ p3 - p2 < md
  · rw [if_pos h1]
    simp
  · rw [if_neg h1]
    by_cases h2 : highs.getD p2 0 ≤ highs.getD p1 0 ∨ highs.getD p2 0 ≤ highs.getD p3 0
    · rw [if_pos h2]
      simp
    · rw [if_neg h2]
      by_cases h3 : tol < |highs.getD p1 0 - highs.getD p3 0| / highs.getD p1 0
      · rw [if_pos h3]
        simp
      · rw [if_neg h3]
        rcases npArgmin_isSome (sliceL_ne_nil h12 h1l) with ⟨i, hi⟩
        rcases npArgmin_isSome (sliceL_ne_nil h23 h2l) with ⟨j, hj⟩
        unfold hsNeckTroughs
        rw [hi, hj]
        dsimp only
        by_cases h4 : tol <
            |lows.getD (p1 + i) 0 - lows.getD (p2 + j) 0| / lows.getD (p1 + i) 0
        · rw [if_pos h4]
          simp
        · rw [if_neg h4]
          match hcf : hsConfirm closes p3 (lows.getD (p1 + i) 0) (lows.getD (p2 + j) 0) with
          | none => exact absurd hcf (hsConfirm_ne_none hc)
          | some b => simp

theorem ihsCandidate_ne_none {highs lows closes : List ℚ} {tol : ℚ} {md : ℕ}
    {t1 t2 t3 : ℕ} (h12 : t1 < t2) (h23 : t2 < t3)
    (h1l : t1 < highs.length) (h2l : t2 < highs.length) (hc : closes ≠ []) :
    ihsCandidate highs lows closes tol md (t1, t2, t3) ≠ none := by
  unfold ihsCandidate
  dsimp only
  by_cases h1 : t2 - t1 < md ∨ t3 - t2 < md
  · rw [if_pos h1]
    simp
  · rw [if_neg h1]
    by_cases h2 : lows.getD t1 0 ≤ lows.getD t2 0 ∨ lows.getD t3 0 ≤ lows.getD t2 0
    · rw [if_pos h2]
      simp
    · rw [if_neg h2]
      by_cases h3 : tol < |lows.getD t1 0 - lows.getD t3 0| / lows.getD t1 0
      · rw [if_pos h3]
        simp
      · rw [if_neg h3]
        rcases npArgmax_isSome (sliceL_ne_nil h12 h1l) with ⟨i, hi⟩
        rcases npArgmax_isSome (sliceL_ne_nil h23 h2l) with ⟨j, hj⟩
        unfold ihsNeckPeaks
        rw [hi, hj]
        dsimp only
        by_cases h4 : tol <
            |highs.getD (t1 + i) 0 - highs.getD (t2 + j) 0| / highs.getD (t1 + i) 0
        · rw [if_pos h4]
          simp
        · rw [if_neg h4]
          match hcf : ihsConfirm closes t3 (highs.getD (t1 + i) 0) (highs.getD (t2 + j) 0) with
          | none => exact absurd hcf (ihsConfirm_ne_none hc)
          | some b => simp

theorem detect_double_bottom_isSome (data : List Bar) (s w : ℕ) :
    ∃ l, detect_double_bottom data s w = some l := by
  unfold detect_double_bottom
  apply filterCandidates_isSome
  rintro ⟨a, b⟩ hc
  rw [mem_pairsAsc (findExtrema_sorted _ _ _)] at hc
  obtain ⟨ha, hb, hab⟩ := hc
  have ha' : a < (closesL data).length := by
    have h := mem_findExtrema_lt ha
    rw [length_lowsL] at h
    rw [length_closesL]
    exact h
  exact dbCandidate_ne_none hab ha'

theorem detect_double_top_isSome (data : List Bar) (s w : ℕ) :
    ∃ l, detect_double_top data s w = some l := by
  unfold detect_double_top
  apply filterCandidates_isSome
  rintro ⟨a, b⟩ hc
  rw [mem_pairsAsc (findExtrema_sorted _ _ _)] at hc
  obtain ⟨ha, hb, hab⟩ := hc
  have ha' : a < (closesL data).length := by
    have h := mem_findExtrema_lt ha
    rw [length_highsL] at h
    rw [length_closesL]
    exact h
  exact dtCandidate_ne_none hab ha'

theorem detect_head_and_shoulders_isSome (data : List Bar) (s w : ℕ) :
    ∃ l, detect_head_and_shoulders data s w = some l := by
  unfold detect_head_and_shoulders
  apply collectCandidates_isSome
  rintro ⟨p1, p2, p3⟩ hc
  have hlt := mem_triplesConsec_lt (findExtrema_sorted _ _ _) hc
  have hmem := mem_triplesConsec hc
  have h1 : p1 < (lowsL data).length := by
    have h := mem_findExtrema_lt hmem.1
    rw [length_highsL] at h
    rw [length_lowsL]
    exact h
  have h2 : p2 < (lowsL data).length := by
    have h := mem_findExtrema_lt hmem.2.1
    rw [length_highsL] at h
    rw [length_lowsL]
    exact h
  have hc' : closesL data ≠ [] := by
    apply List.ne_nil_of_length_pos
    rw [length_closesL]
    rw [length_lowsL] at h1
    omega
  exact hsCandidate_ne_none hlt.1 hlt.2 h1 h2 hc'

theorem detect_inverse_head_and_shoulders_isSome (data : List Bar) (s w : ℕ) :
    ∃ l, detect_inverse_head_and_shoulders data s w = some l := by
  unfold detect_inverse_head_and_shoulders
  apply collectCandidates_isSome
  rintro ⟨t1, t2, t3⟩ hc
  have hlt := mem_triplesConsec_lt (findExtrema_sorted _ _ _) hc
  have hmem := mem_triplesConsec hc
  have h1 : t1 < (highsL data).length := by
    have h := mem_findExtrema_lt hmem.1
    rw [length_lowsL] at h
    rw [length_highsL]
    exact h
  have h2 : t2 < (highsL data).length := by
    have h := mem_findExtrema_lt hmem.2.1
    rw [length_lowsL] at h
    rw [length_highsL]
    exact h
  have hc' : closesL data ≠ [] := by
    apply List.ne_nil_of_length_pos
    rw [length_closesL]
    rw [length_highsL] at h1
    omega
  exact ihsCandidate_ne_none hlt.1 hlt.2 h1 h2 hc'

theorem pairsAsc_short {l : List ℕ} (h : l.length < 2) : pairsAsc l = [] := by
  match l, h with
  | [], _ => rfl
  | [x], _ => rfl

theorem triplesConsec_short {l : List ℕ} (h : l.length < 3) : triplesConsec l = [] := by
  match l, h with
  | [], _ => rfl
  | [x], _ => rfl
  | [x, y], _ => rfl

theorem dbCandidate_eq_some_true {lows closes : List ℚ} {tol : ℚ} {md : ℕ} {a b : ℕ}
    (hab : a < b) (ha : a < closes.length) :
    dbCandidate lows closes tol md (a, b) = some true ↔
      md ≤ b - a ∧
      |lows.getD a 0 - lows.getD b 0| / lows.getD a 0 ≤ tol ∧
      (∃ m, listMaxQ (sliceL closes a b) = some m ∧
        0.02 ≤ (m - lows.getD a 0) / lows.getD a 0 ∧
        0.02 ≤ (m - lows.getD b 0) / lows.getD b 0) ∧
      (if b + 5 < closes.length
        then lows.getD b 0 < closes.getD (b + 5) 0
        else lows.getD b 0 < closes.getD (closes.length - 1) 0) := by
  have hne : closes ≠ [] := List.ne_nil_of_length_pos (by omega)
  rcases listMaxQ_isSome (sliceL_ne_nil hab ha) with ⟨m, hm⟩
  unfold dbCandidate
  dsimp only
  by_cases h1 : b - a < md
  · rw [if_pos h1]
    refine iff_of_false (by simp) ?_
    rintro ⟨hd, _⟩
    omega
  · rw [if_neg h1]
    by_cases h2 : tol < |lows.getD a 0 - lows.getD b 0| / lows.getD a 0
    · rw [if_pos h2]
      refine iff_of_false (by simp) ?_
      rintro ⟨_, hle, _⟩
      exact absurd h2 (not_lt.2 hle)
    · rw [if_neg h2]
      rw [hm]
      dsimp only
      by_cases h3 : (m - lows.getD a 0) / lows.getD a 0 < 0.02 ∨
          (m - lows.getD b 0) / lows.getD b 0 < 0.02
      · rw [if_pos h3]
        refine iff_of_false (by simp) ?_
        rintro ⟨_, _, ⟨m', hm', hr1, hr2⟩, _⟩
        injection hm' with hm'
        subst hm'
        rcases h3 with h | h
        · exact absurd h (not_lt.2 hr1)
        · exact absurd h (not_lt.2 hr2)
      · rw [if_neg h3]
        push_neg at h3
        unfold dbConfirm
        by_cases h5 : b + 5 < closes.length
        · rw [if_pos h5, if_pos h5]
          simp only [Option.some.injEq, decide_eq_true_eq]
          constructor
          · intro hconf
            exact ⟨by omega, not_lt.1 h2, ⟨m, rfl, h3.1, h3.2⟩, hconf⟩
          · rintro ⟨_, _, _, hconf⟩
            exact hconf
        · rw [if_neg h5, if_neg h5, getLast?_eq_getD_last hne]
          simp only [Option.map_some', Option.some.injEq, decide_eq_true_eq]
          constructor
          · intro hconf
            exact ⟨by omega, not_lt.1 h2, ⟨m, rfl, h3.1, h3.2⟩, hconf⟩
          · rintro ⟨_, _, _, hconf⟩
            exact hconf

/-- C1: for every OHLC series and sensitivity `s` in `[1,10]` with window 20,
`detect_double_bottom` returns exactly the pairs `(idx1, idx2)` of
trough-extrema (order `max(20/4, 1)`) with `idx1 < idx2` such that the
distance is at least `max(5, ⌊20·0.7·(11−s)/10⌋)`, the relative price
difference of the two trough lows does not exceed `0.03·(11−s)`, the
maximum close between the troughs exceeds each trough's low by at least 2%
relative, and the confirmation close (close at `idx2+5` if in bounds, else
the final close) strictly exceeds the second trough's low. -/
theorem detect_double_bottom_characterization (data : List Bar) (s : ℕ)
    (hs1 : 1 ≤ s) (hs2 : s ≤ 10) :
    ∃ l, detect_double_bottom data s 20 = some l ∧
      ∀ i1 i2 : ℕ, ((i1, i2) ∈ l ↔
        (i1 ∈ findExtrema (lowsL data) .trough (max (20 / 4) 1) ∧
         i2 ∈ findExtrema (lowsL data) .trough (max (20 / 4) 1) ∧
         i1 < i2 ∧
         max 5 (20 * 7 * (11 - s) / 100) ≤ i2 - i1 ∧
         |(lowsL data).getD i1 0 - (lowsL data).getD i2 0| / (lowsL data).getD i1 0 ≤
           0.03 * (11 - (s : ℚ)) ∧
         (∃ m, listMaxQ (sliceL (closesL data) i1 i2) = some m ∧
           0.02 ≤ (m - (lowsL data).getD i1 0) / (lowsL data).getD i1 0 ∧
           0.02 ≤ (m - (lowsL data).getD i2 0) / (lowsL data).getD i2 0) ∧
         (if i2 + 5 < (closesL data).length
           then (lowsL data).getD i2 0 < (closesL data).getD (i2 + 5) 0
           else (lowsL data).getD i2 0 < (closesL data).getD ((closesL data).length - 1) 0))) := by
  obtain ⟨l, hl⟩ := detect_double_bottom_isSome data s 20
  refine ⟨l, hl, fun i1 i2 => ?_⟩
  unfold detect_double_bottom at hl
  rw [mem_of_filterCandidates hl (i1, i2),
    mem_pairsAsc (findExtrema_sorted _ _ _)]
  constructor
  · rintro ⟨⟨h1, h2, h12⟩, hcand⟩
    have ha' : i1 < (closesL data).length := by
      have h := mem_findExtrema_lt h1
      rw [length_lowsL] at h
      rw [length_closesL]
      exact h
    rw [dbCandidate_eq_some_true h12 ha'] at hcand
    exact ⟨h1, h2, h12, hcand.1, hcand.2.1, hcand.2.2.1, hcand.2.2.2⟩
  · rintro ⟨h1, h2, h12, hd, ht, hr, hconf⟩
    have ha' : i1 < (closesL data).length := by
      have h := mem_findExtrema_lt h1
      rw [length_lowsL] at h
      rw [length_closesL]
      exact h
    exact ⟨⟨h1, h2, h12⟩, (dbCandidate_eq_some_true h12 ha').2 ⟨hd, ht, hr, hconf⟩⟩

/-- Witness for C1, instantiated at the specification's own synthetic
double-bottom series with sensitivity 5. -/
theorem detect_double_bottom_characterization_witness :
    1 ≤ 5 ∧ 5 ≤ 10 ∧
      (∃ l, detect_double_bottom dbExample 5 20 = some l ∧
        ∀ i1 i2 : ℕ, ((i1, i2) ∈ l ↔
          (i1 ∈ findExtrema (lowsL dbExample) .trough (max (20 / 4) 1) ∧
           i2 ∈ findExtrema (lowsL dbExample) .trough (max (20 / 4) 1) ∧
           i1 < i2 ∧
           max 5 (20 * 7 * (11 - 5) / 100) ≤ i2 - i1 ∧
           |(lowsL dbExample).getD i1 0 - (lowsL dbExample).getD i2 0| /
               (lowsL dbExample).getD i1 0 ≤ 0.03 * (11 - (5 : ℚ)) ∧
           (∃ m, listMaxQ (sliceL (closesL dbExample) i1 i2) = some m ∧
             0.02 ≤ (m - (lowsL dbExample).getD i1 0) / (lowsL dbExample).getD i1 0 ∧
             0.02 ≤ (m - (lowsL dbExample).getD i2 0) / (lowsL dbExample).getD i2 0) ∧
           (if i2 + 5 < (closesL dbExample).length
             then (lowsL dbExample).getD i2 0 < (closesL dbExample).getD (i2 + 5) 0
             else (lowsL dbExample).getD i2 0 <
               (closesL dbExample).getD ((closesL dbExample).length - 1) 0)))) :=
  ⟨by norm_num, by norm_num,
    detect_double_bottom_characterization dbExample 5 (by norm_num) (by norm_num)⟩

/-- C2: for every numeric series, extremum kind and positive order,
`findExtrema` returns, in ascending order, exactly the indices whose value
compares (≥ for peaks, ≤ for troughs) against every value in the window
`[i-order, i+order]` clamped to the series bounds, plateaus of tying
adjacent indices all included. -/
theorem findExtrema_characterization (vals : List ℚ) (kind : ExtKind) (order : ℕ)
    (ho : 0 < order) :
    (∀ i, i ∈ findExtrema vals kind order ↔
      (i < vals.length ∧ ∀ j, i - order ≤ j → j ≤ i + order → j < vals.length →
        kind.cmp (vals.getD i 0) (vals.getD j 0))) ∧
    (findExtrema vals kind order).Pairwise (· < ·) :=
  ⟨fun _ => mem_findExtrema, findExtrema_sorted _ _ _⟩

/-- Witness for C2, instantiated at a four-point series with a tied
two-index trough plateau. -/
theorem findExtrema_characterization_witness :
    0 < 1 ∧
      ((∀ i, i ∈ findExtrema [3, 1, 1, 2] .trough 1 ↔
        (i < (4 : ℕ) ∧ ∀ j, i - 1 ≤ j → j ≤ i + 1 → j < (4 : ℕ) →
          ExtKind.cmp .trough (List.getD [3, 1, 1, 2] i 0) (List.getD [3, 1, 1, 2] j 0))) ∧
      (findExtrema [3, 1, 1, 2] .trough 1).Pairwise (· < ·)) :=
  ⟨by norm_num, findExtrema_characterization [3, 1, 1, 2] .trough 1 (by norm_num)⟩

/-- C6: for every window and sensitivities `s1 ≤ s2` in `[1,10]`, each
sensitivity-derived tolerance, minimum distance, minimum duration and
price threshold at `s2` is at most its value at `s1` (increasing
sensitivity never yields stricter thresholds). -/
theorem sensitivity_params_monotone (w s1 s2 : ℕ) (h1 : 1 ≤ s1) (h12 : s1 ≤ s2)
    (h2 : s2 ≤ 10) :
    dbTolerance s2 ≤ dbTolerance s1 ∧ dbMinDistance w s2 ≤ dbMinDistance w s1 ∧
    hsTolerance s2 ≤ hsTolerance s1 ∧ hsMinDistance w s2 ≤ hsMinDistance w s1 ∧
    triMinDuration w s2 ≤ triMinDuration w s1 ∧
    srPriceThreshold s2 ≤ srPriceThreshold s1 := by
  have hq : (s1 : ℚ) ≤ (s2 : ℚ) := by exact_mod_cast h12
  have hnat : 11 - s2 ≤ 11 - s1 := Nat.sub_le_sub_left h12 11
  refine ⟨?_, ?_, ?_, ?_, ?_, ?_⟩
  · unfold dbTolerance
    nlinarith
  · unfold dbMinDistance
    exact max_le_max (le_refl 5)
      (Nat.div_le_div_right (Nat.mul_le_mul_left _ hnat))
  · unfold hsTolerance
    nlinarith
  · unfold hsMinDistance
    exact max_le_max (le_refl 3)
      (Nat.div_le_div_right (Nat.mul_le_mul_left _ hnat))
  · unfold triMinDuration
    exact max_le_max (le_refl 7)
      (Nat.div_le_div_right (Nat.mul_le_mul_left _ hnat))
  · unfold srPriceThreshold
    nlinarith

/-- Witness for C6 at window 20 and sensitivities 3 ≤ 7. -/
theorem sensitivity_params_monotone_witness :
    1 ≤ 3 ∧ 3 ≤ 7 ∧ 7 ≤ 10 ∧
      (dbTolerance 7 ≤ dbTolerance 3 ∧ dbMinDistance 20 7 ≤ dbMinDistance 20 3 ∧
       hsTolerance 7 ≤ hsTolerance 3 ∧ hsMinDistance 20 7 ≤ hsMinDistance 20 3 ∧
       triMinDuration 20 7 ≤ triMinDuration 20 3 ∧
       srPriceThreshold 7 ≤ srPriceThreshold 3) :=
  ⟨by norm_num, by norm_num, by norm_num,
    sensitivity_params_monotone 20 3 7 (by norm_num) (by norm_num) (by norm_num)⟩

/-- C10: whenever the symmetric-triangle geometric checks hold (three
strictly decreasing peak prices with the first peak index before the third,
and a strictly rising trough pair with the first trough index before the
second), the peak slope is strictly negative and the trough slope strictly
positive, so their product is negative and the opposite-sign rejection
branch (`peak_slope * trough_slope >= 0`) can never fire. -/
theorem symmetric_slope_product_neg (peak1 peak2 peak3 trough1 trough2 : ℚ)
    (p1 p3 t1 t2 : ℕ) (hp : p1 < p3) (ht : t1 < t2)
    (hpk1 : peak2 < peak1) (hpk2 : peak3 < peak2) (htr : trough1 < trough2) :
    lineSlope peak1 peak3 p1 p3 * lineSlope trough1 trough2 t1 t2 < 0 ∧
      ¬ 0 ≤ lineSlope peak1 peak3 p1 p3 * lineSlope trough1 trough2 t1 t2 := by
  have hd1 : (0 : ℚ) < (p3 : ℚ) - (p1 : ℚ) := by
    have : (p1 : ℚ) < (p3 : ℚ) := by exact_mod_cast hp
    linarith
  have hd2 : (0 : ℚ) < (t2 : ℚ) - (t1 : ℚ) := by
    have : (t1 : ℚ) < (t2 : ℚ) := by exact_mod_cast ht
    linarith
  have hs1 : lineSlope peak1 peak3 p1 p3 < 0 :=
    div_neg_of_neg_of_pos (by linarith) hd1
  have hs2 : 0 < lineSlope trough1 trough2 t1 t2 :=
    div_pos (by linarith) hd2
  have hprod := mul_neg_of_neg_of_pos hs1 hs2
  exact ⟨hprod, not_le.2 hprod⟩

/-- Witness for C10 at concrete slopes. -/
theorem symmetric_slope_product_neg_witness :
    (0 : ℕ) < 7 ∧ (2 : ℕ) < 5 ∧ (9 : ℚ) < 10 ∧ (8 : ℚ) < 9 ∧ (1 : ℚ) < 2 ∧
      (lineSlope 10 8 0 7 * lineSlope 1 2 2 5 < 0 ∧
        ¬ 0 ≤ lineSlope 10 8 0 7 * lineSlope 1 2 2 5) :=
  ⟨by norm_num, by norm_num, by norm_num, by norm_num, by norm_num,
    symmetric_slope_product_neg 10 9 8 1 2 0 7 2 5 (by norm_num) (by norm_num)
      (by norm_num) (by norm_num) (by norm_num)⟩

theorem hsCandidate_emits {highs lows closes : List ℚ} {tol : ℚ} {md : ℕ}
    {q1 q2 q3 : ℕ} {y : ℕ × ℕ × ℕ × ℕ × ℕ}
    (h : hsCandidate highs lows closes tol md (q1, q2, q3) = some (some y)) :
    ∃ u1 u2, hsNeckTroughs lows q1 q2 q3 = some (u1, u2) ∧
      y = (q1, u1, q2, u2, q3) ∧
      hsConfirm closes q3 (lows.getD u1 0) (lows.getD u2 0) = some true := by
  unfold hsCandidate at h
  dsimp only at h
  split at h
  · simp at h
  · split at h
    · simp at h
    · split at h
      · simp at h
      · split at h
        · simp at h
        · rename_i u1 u2 hneck
          split at h
          · simp at h
          · split at h
            · simp at h
            · rename_i b hconf
              cases b with
              | false => simp at h
              | true =>
                simp only [if_pos trivial, Option.some.injEq] at h
                exact ⟨u1, u2, hneck, h.symm, hconf⟩

/-- Counterexample to C3: on `hsCexBars` with sensitivity 1 and window 6,
the consecutive peak triple `(1, 4, 7)` passes every geometric test and
the claim's confirmation holds (the confirmation close — here the final
close, as `7 + 5` is out of bounds — is strictly below the neckline
average `9/2`), yet the detector emits nothing: in the fallback branch the
source compares the final close against the close at the third peak
instead of the neckline average. -/
theorem hs_confirmation_counterexample :
    (1, 4, 7) ∈ triplesConsec (findExtrema (highsL hsCexBars) .peak (max (6 / 6) 1)) ∧
    ¬ (4 - 1 < hsMinDistance 6 1 ∨ 7 - 4 < hsMinDistance 6 1) ∧
    ¬ ((highsL hsCexBars).getD 4 0 ≤ (highsL hsCexBars).getD 1 0 ∨
        (highsL hsCexBars).getD 4 0 ≤ (highsL hsCexBars).getD 7 0) ∧
    ¬ (hsTolerance 1 < |(highsL hsCexBars).getD 1 0 - (highsL hsCexBars).getD 7 0| /
        (highsL hsCexBars).getD 1 0) ∧
    hsNeckTroughs (lowsL hsCexBars) 1 4 7 = some (2, 6) ∧
    ¬ (hsTolerance 1 < |(lowsL hsCexBars).getD 2 0 - (lowsL hsCexBars).getD 6 0| /
        (lowsL hsCexBars).getD 2 0) ∧
    ¬ (7 + 5 < (closesL hsCexBars).length) ∧
    (closesL hsCexBars).getD ((closesL hsCexBars).length - 1) 0 <
      ((lowsL hsCexBars).getD 2 0 + (lowsL hsCexBars).getD 6 0) / 2 ∧
    detect_head_and_shoulders hsCexBars 1 6 = some [] := by
  refine ⟨?_, ?_, ?_, ?_, ?_, ?_, ?_, ?_, ?_⟩ <;> with_unfolding_all decide

/-- C3 (amended): a head-and-shoulders candidate passing the geometric
tests is emitted iff its confirmation holds, where the confirmation
compares the close 5 bars after the third peak against the neckline
average when that index is in bounds, and otherwise compares the series'
final close against the close at the third peak (not against the neckline
average). -/
theorem hs_confirmation_amended (data : List Bar) (s w : ℕ) (p1 p2 p3 t1i t2i : ℕ)
    (hmem : (p1, p2, p3) ∈ triplesConsec (findExtrema (highsL data) .peak (max (w / 6) 1)))
    (hneck : hsNeckTroughs (lowsL data) p1 p2 p3 = some (t1i, t2i))
    (hd : ¬ (p2 - p1 < hsMinDistance w s ∨ p3 - p2 < hsMinDistance w s))
    (hh : ¬ ((highsL data).getD p2 0 ≤ (highsL data).getD p1 0 ∨
        (highsL data).getD p2 0 ≤ (highsL data).getD p3 0))
    (hsh : ¬ (hsTolerance s < |(highsL data).getD p1 0 - (highsL data).getD p3 0| /
        (highsL data).getD p1 0))
    (hnt : ¬ (hsTolerance s < |(lowsL data).getD t1i 0 - (lowsL data).getD t2i 0| /
        (lowsL data).getD t1i 0)) :
    ∃ l, detect_head_and_shoulders data s w = some l ∧
      ((p1, t1i, p2, t2i, p3) ∈ l ↔
        hsConfirm (closesL data) p3 ((lowsL data).getD t1i 0)
          ((lowsL data).getD t2i 0) = some true) := by
  obtain ⟨l, hl⟩ := detect_head_and_shoulders_isSome data s w
  refine ⟨l, hl, ?_⟩
  unfold detect_head_and_shoulders at hl
  rw [mem_of_collectCandidates hl]
  constructor
  · rintro ⟨⟨q1, q2, q3⟩, hcs, hcand⟩
    obtain ⟨u1, u2, hneck', hy, hconf⟩ := hsCandidate_emits hcand
    obtain ⟨rfl, rfl, rfl, rfl, rfl⟩ : p1 = q1 ∧ t1i = u1 ∧ p2 = q2 ∧ t2i = u2 ∧ p3 = q3 := by
      have h1 := congrArg Prod.fst hy
      have h2 := congrArg (fun x => x.2.1) hy
      have h3 := congrArg (fun x => x.2.2.1) hy
      have h4 := congrArg (fun x => x.2.2.2.1) hy
      have h5 := congrArg (fun x => x.2.2.2.2) hy
      exact ⟨h1, h2, h3, h4, h5⟩
    exact hconf
  · intro hconf
    refine ⟨(p1, p2, p3), hmem, ?_⟩
    unfold hsCandidate
    dsimp only
    rw [if_neg hd, if_neg hh, if_neg hsh, hneck]
    dsimp only
    rw [if_neg hnt, hconf]
    simp

/-- Witness for the amended C3 at `hsWitBars`, where the emitted pattern
`(1, 2, 4, 6, 7)` is confirmed through the fallback comparison against the
close at the third peak. -/
theorem hs_confirmation_amended_witness :
    (1, 4, 7) ∈ triplesConsec (findExtrema (highsL hsWitBars) .peak (max (6 / 6) 1)) ∧
    hsNeckTroughs (lowsL hsWitBars) 1 4 7 = some (2, 6) ∧
    ¬ (4 - 1 < hsMinDistance 6 1 ∨ 7 - 4 < hsMinDistance 6 1) ∧
    ¬ ((highsL hsWitBars).getD 4 0 ≤ (highsL hsWitBars).getD 1 0 ∨
        (highsL hsWitBars).getD 4 0 ≤ (highsL hsWitBars).getD 7 0) ∧
    ¬ (hsTolerance 1 < |(highsL hsWitBars).getD 1 0 - (highsL hsWitBars).getD 7 0| /
        (highsL hsWitBars).getD 1 0) ∧
    ¬ (hsTolerance 1 < |(lowsL hsWitBars).getD 2 0 - (lowsL hsWitBars).getD 6 0| /
        (lowsL hsWitBars).getD 2 0) ∧
    (∃ l, detect_head_and_shoulders hsWitBars 1 6 = some l ∧
      ((1, 2, 4, 6, 7) ∈ l ↔
        hsConfirm (closesL hsWitBars) 7 ((lowsL hsWitBars).getD 2 0)
          ((lowsL hsWitBars).getD 6 0) = some true)) :=
  ⟨by with_unfolding_all decide, by with_unfolding_all decide,
    by with_unfolding_all decide, by with_unfolding_all decide,
    by with_unfolding_all decide, by with_unfolding_all decide,
    hs_confirmation_amended hsWitBars 1 6 1 4 7 2 6
      (by with_unfolding_all decide) (by with_unfolding_all decide)
      (by with_unfolding_all decide) (by with_unfolding_all decide)
      (by with_unfolding_all decide) (by with_unfolding_all decide)⟩

/-- Counterexample to C4: on `ascTriBars` the ascending-triangle detector
emits an occurrence whose last defining index 8 is within 5 bars of the
series end with `breakout = false`, although the series' final close (195)
exceeds the mean resistance (100) — the claimed comparison against the
final close would have yielded a breakout, but the source performs no
comparison at all in this branch. -/
theorem confirmation_fallback_counterexample :
    detect_triangle ascTriBars 10 8 =
      [⟨.ascending, [1, 2, 4, 7, 8], 15, 100, false⟩] ∧
    ¬ (8 + 5 < (highsL ascTriBars).length) ∧
    meanQ [(highsL ascTriBars).getD 1 0, (highsL ascTriBars).getD 4 0,
        (highsL ascTriBars).getD 8 0] <
      (closesL ascTriBars).getD ((closesL ascTriBars).length - 1) 0 := by
  refine ⟨?_, ?_, ?_⟩ <;> with_unfolding_all decide

/-- C4 (amended): with a last defining index within 5 bars of the series
end, the double bottom/top detectors compare against the series' final
close, the head-and-shoulders detectors compare the final close against
the close at the last peak (resp. trough), and the triangle detectors set
the breakout flag to `false` without any comparison; in all other cases
every detector uses the close exactly 5 bars after the last defining
index (the symmetric triangle comparing that close against the
extrapolated peak trend line). -/
theorem confirmation_fallback_amended :
    (∀ (closes : List ℚ) (i : ℕ) (p : ℚ), closes ≠ [] → closes.length ≤ i + 5 →
      dbConfirm closes i p = some (decide (p < closes.getD (closes.length - 1) 0))) ∧
    (∀ (closes : List ℚ) (i : ℕ) (p : ℚ), i + 5 < closes.length →
      dbConfirm closes i p = some (decide (p < closes.getD (i + 5) 0))) ∧
    (∀ (closes : List ℚ) (i : ℕ) (p : ℚ), closes ≠ [] → closes.length ≤ i + 5 →
      dtConfirm closes i p = some (decide (closes.getD (closes.length - 1) 0 < p))) ∧
    (∀ (closes : List ℚ) (i : ℕ) (p : ℚ), i + 5 < closes.length →
      dtConfirm closes i p = some (decide (closes.getD (i + 5) 0 < p))) ∧
    (∀ (closes : List ℚ) (i : ℕ) (t1 t2 : ℚ), closes ≠ [] → closes.length ≤ i + 5 →
      hsConfirm closes i t1 t2 =
        some (decide (closes.getD (closes.length - 1) 0 < closes.getD i 0))) ∧
    (∀ (closes : List ℚ) (i : ℕ) (t1 t2 : ℚ), i + 5 < closes.length →
      hsConfirm closes i t1 t2 = some (decide (closes.getD (i + 5) 0 < (t1 + t2) / 2))) ∧
    (∀ (closes : List ℚ) (i : ℕ) (p1 p2 : ℚ), closes ≠ [] → closes.length ≤ i + 5 →
      ihsConfirm closes i p1 p2 =
        some (decide (closes.getD i 0 < closes.getD (closes.length - 1) 0))) ∧
    (∀ (closes : List ℚ) (i : ℕ) (p1 p2 : ℚ), i + 5 < closes.length →
      ihsConfirm closes i p1 p2 = some (decide ((p1 + p2) / 2 < closes.getD (i + 5) 0))) ∧
    (∀ (highs closes : List ℚ) (peak1 peakSlope : ℚ) (p1 p3 : ℕ),
      highs.length ≤ p3 + 5 → triSymBreakout highs closes peak1 peakSlope p1 p3 = false) ∧
    (∀ (highs closes : List ℚ) (p3 : ℕ) (r : ℚ),
      highs.length ≤ p3 + 5 → triAscBreakout highs closes p3 r = false) ∧
    (∀ (highs closes : List ℚ) (p3 : ℕ) (r : ℚ), p3 + 5 < highs.length →
      triAscBreakout highs closes p3 r = decide (r < closes.getD (p3 + 5) 0)) ∧
    (∀ (lows closes : List ℚ) (t3 : ℕ) (sup : ℚ),
      lows.length ≤ t3 + 5 → triDescBreakout lows closes t3 sup = false) ∧
    (∀ (lows closes : List ℚ) (t3 : ℕ) (sup : ℚ), t3 + 5 < lows.length →
      triDescBreakout lows closes t3 sup = decide (closes.getD (t3 + 5) 0 < sup)) ∧
    (∀ (highs closes : List ℚ) (peak1 peakSlope : ℚ) (p1 p3 : ℕ), p3 + 5 < highs.length →
      triSymBreakout highs closes peak1 peakSlope p1 p3 =
        decide (0.02 <
          |closes.getD (p3 + 5) 0 - (peak1 + peakSlope * ((p3 : ℚ) + 5 - (p1 : ℚ)))| /
            (peak1 + peakSlope * ((p3 : ℚ) + 5 - (p1 : ℚ))))) := by
  refine ⟨?_, ?_, ?_, ?_, ?_, ?_, ?_, ?_, ?_, ?_, ?_, ?_, ?_, ?_⟩
  · intro closes i p hne h5
    unfold dbConfirm
    rw [if_neg (by omega), getLast?_eq_getD_last hne]
    rfl
  · intro closes i p h5
    unfold dbConfirm
    rw [if_pos h5]
  · intro closes i p hne h5
    unfold dtConfirm
    rw [if_neg (by omega), getLast?_eq_getD_last hne]
    rfl
  · intro closes i p h5
    unfold dtConfirm
    rw [if_pos h5]
  · intro closes i t1 t2 hne h5
    unfold hsConfirm
    rw [if_neg (by omega), getLast?_eq_getD_last hne]
    rfl
  · intro closes i t1 t2 h5
    unfold hsConfirm
    rw [if_pos h5]
  · intro closes i p1 p2 hne h5
    unfold ihsConfirm
    rw [if_neg (by omega), getLast?_eq_getD_last hne]
    rfl
  · intro closes i p1 p2 h5
    unfold ihsConfirm
    rw [if_pos h5]
  · intro highs closes peak1 peakSlope p1 p3 h5
    unfold triSymBreakout
    rw [if_neg (by omega)]
  · intro highs closes p3 r h5
    unfold triAscBreakout
    rw [if_neg (by omega)]
  · intro highs closes p3 r h5
    unfold triAscBreakout
    rw [if_pos h5]
  · intro lows closes t3 sup h5
    unfold triDescBreakout
    rw [if_neg (by omega)]
  · intro lows closes t3 sup h5
    unfold triDescBreakout
    rw [if_pos h5]
  · intro highs closes peak1 peakSlope p1 p3 h5
    unfold triSymBreakout
    rw [if_pos h5]

/-- Witness for the amended C4, instantiating every clause at small
concrete inputs. -/
theorem confirmation_fallback_amended_witness :
    ([(1 : ℚ), 2, 3] ≠ [] ∧ [(1 : ℚ), 2, 3].length ≤ 0 + 5 ∧ (0 : ℕ) + 5 < [(1 : ℚ), 2, 3, 4, 5, 6, 7].length) ∧
    (dbConfirm [1, 2, 3] 0 5 = some (decide ((5 : ℚ) < List.getD [1, 2, 3] (List.length [(1 : ℚ), 2, 3] - 1) 0)) ∧
     dbConfirm [1, 2, 3, 4, 5, 6, 7] 0 5 = some (decide ((5 : ℚ) < List.getD [1, 2, 3, 4, 5, 6, 7] (0 + 5) 0)) ∧
     dtConfirm [1, 2, 3] 0 5 = some (decide (List.getD [1, 2, 3] (List.length [(1 : ℚ), 2, 3] - 1) 0 < 5)) ∧
     dtConfirm [1, 2, 3, 4, 5, 6, 7] 0 5 = some (decide (List.getD [1, 2, 3, 4, 5, 6, 7] (0 + 5) 0 < 5)) ∧
     hsConfirm [1, 2, 3] 0 5 6 = some (decide (List.getD [1, 2, 3] (List.length [(1 : ℚ), 2, 3] - 1) 0 < List.getD [1, 2, 3] 0 0)) ∧
     hsConfirm [1, 2, 3, 4, 5, 6, 7] 0 5 6 = some (decide (List.getD [1, 2, 3, 4, 5, 6, 7] (0 + 5) 0 < ((5 : ℚ) + 6) / 2)) ∧
     ihsConfirm [1, 2, 3] 0 5 6 = some (decide (List.getD [1, 2, 3] 0 0 < List.getD [1, 2, 3] (List.length [(1 : ℚ), 2, 3] - 1) 0)) ∧
     ihsConfirm [1, 2, 3, 4, 5, 6, 7] 0 5 6 = some (decide (((5 : ℚ) + 6) / 2 < List.getD [1, 2, 3, 4, 5, 6, 7] (0 + 5) 0)) ∧
     triSymBreakout [1, 2, 3] [1, 2, 3] 5 1 0 0 = false ∧
     triAscBreakout [1, 2, 3] [1, 2, 3] 0 5 = false ∧
     triAscBreakout [1, 2, 3, 4, 5, 6, 7] [1, 2, 3, 4, 5, 6, 7] 0 5 = decide ((5 : ℚ) < List.getD [1, 2, 3, 4, 5, 6, 7] (0 + 5) 0) ∧
     triDescBreakout [1, 2, 3] [1, 2, 3] 0 5 = false ∧
     triDescBreakout [1, 2, 3, 4, 5, 6, 7] [1, 2, 3, 4, 5, 6, 7] 0 5 = decide (List.getD [1, 2, 3, 4, 5, 6, 7] (0 + 5) 0 < 5) ∧
     triSymBreakout [1, 2, 3, 4, 5, 6, 7] [1, 2, 3, 4, 5, 6, 7] 10 1 0 0 =
       decide ((0.02 : ℚ) <
         |List.getD [1, 2, 3, 4, 5, 6, 7] (0 + 5) 0 - (10 + 1 * (((0 : ℕ) : ℚ) + 5 - ((0 : ℕ) : ℚ)))| /
           (10 + 1 * (((0 : ℕ) : ℚ) + 5 - ((0 : ℕ) : ℚ))))) :=
  ⟨⟨by simp, by simp, by simp⟩,
    confirmation_fallback_amended.1 [1, 2, 3] 0 5 (by simp) (by simp),
    confirmation_fallback_amended.2.1 [1, 2, 3, 4, 5, 6, 7] 0 5 (by simp),
    confirmation_fallback_amended.2.2.1 [1, 2, 3] 0 5 (by simp) (by simp),
    confirmation_fallback_amended.2.2.2.1 [1, 2, 3, 4, 5, 6, 7] 0 5 (by simp),
    confirmation_fallback_amended.2.2.2.2.1 [1, 2, 3] 0 5 6 (by simp) (by simp),
    confirmation_fallback_amended.2.2.2.2.2.1 [1, 2, 3, 4, 5, 6, 7] 0 5 6 (by simp),
    confirmation_fallback_amended.2.2.2.2.2.2.1 [1, 2, 3] 0 5 6 (by simp) (by simp),
    confirmation_fallback_amended.2.2.2.2.2.2.2.1 [1, 2, 3, 4, 5, 6, 7] 0 5 6 (by simp),
    confirmation_fallback_amended.2.2.2.2.2.2.2.2.1 [1, 2, 3] [1, 2, 3] 5 1 0 0 (by simp),
    confirmation_fallback_amended.2.2.2.2.2.2.2.2.2.1 [1, 2, 3] [1, 2, 3] 0 5 (by simp),
    confirmation_fallback_amended.2.2.2.2.2.2.2.2.2.2.1 [1, 2, 3, 4, 5, 6, 7] [1, 2, 3, 4, 5, 6, 7] 0 5 (by simp),
    confirmation_fallback_amended.2.2.2.2.2.2.2.2.2.2.2.1 [1, 2, 3] [1, 2, 3] 0 5 (by simp),
    confirmation_fallback_amended.2.2.2.2.2.2.2.2.2.2.2.2.1 [1, 2, 3, 4, 5, 6, 7] [1, 2, 3, 4, 5, 6, 7] 0 5 (by simp),
    confirmation_fallback_amended.2.2.2.2.2.2.2.2.2.2.2.2.2 [1, 2, 3, 4, 5, 6, 7] [1, 2, 3, 4, 5, 6, 7] 10 1 0 0 (by simp)⟩

theorem ihsCandidate_emits {highs lows closes : List ℚ} {tol : ℚ} {md : ℕ}
    {q1 q2 q3 : ℕ} {y : ℕ × ℕ × ℕ × ℕ × ℕ}
    (h : ihsCandidate highs lows closes tol md (q1, q2, q3) = some (some y)) :
    ∃ u1 u2, ihsNeckPeaks highs q1 q2 q3 = some (u1, u2) ∧
      y = (q1, u1, q2, u2, q3) ∧
      ihsConfirm closes q3 (highs.getD u1 0) (highs.getD u2 0) = some true := by
  unfold ihsCandidate at h
  dsimp only at h
  split at h
  · simp at h
  · split at h
    · simp at h
    · split at h
      · simp at h
      · split at h
        · simp at h
        · rename_i u1 u2 hneck
          split at h
          · simp at h
          · split at h
            · simp at h
            · rename_i b hconf
              cases b with
              | false => simp at h
              | true =>
                simp only [if_pos trivial, Option.some.injEq] at h
                exact ⟨u1, u2, hneck, h.symm, hconf⟩

theorem dbCandidate_confirm {lows closes : List ℚ} {tol : ℚ} {md : ℕ} {a b : ℕ}
    (h : dbCandidate lows closes tol md (a, b) = some true) :
    dbConfirm closes b (lows.getD b 0) = some true := by
  unfold dbCandidate at h
  dsimp only at h
  split at h
  · simp at h
  · split at h
    · simp at h
    · split at h
      · simp at h
      · split at h
        · simp at h
        · exact h

theorem dtCandidate_confirm {highs closes : List ℚ} {tol : ℚ} {md : ℕ} {a b : ℕ}
    (h : dtCandidate highs closes tol md (a, b) = some true) :
    dtConfirm closes b (highs.getD b 0) = some true := by
  unfold dtCandidate at h
  dsimp only at h
  split at h
  · simp at h
  · split at h
    · simp at h
    · split at h
      · simp at h
      · split at h
        · simp at h
        · exact h

/-- Projection of a triangle occurrence onto everything except the
breakout flag, used to state that the triangle detector does not filter
on the breakout test. -/
def stripBreakout (t : Triangle) : TriKind × List ℕ × ℤ × ℚ :=
  (t.kind, t.points, t.convergeX, t.convergeY)

/-- The bars of `ascTriBars` with every close replaced by 0: same High and
Low columns, so the same triangle candidates, but no breakout can hold. -/
def ascTriBarsAltClose : List Bar := ascTriBars.map fun b => ⟨b.high, b.low, 0⟩

theorem triSymCandidate_closes_irrel (highs lows closes closes' : List ℚ)
    (minIdx : List ℕ) (md w : ℕ) (t : ℕ × ℕ × ℕ) :
    (triSymCandidate highs lows closes minIdx md w t).map stripBreakout =
      (triSymCandidate highs lows closes' minIdx md w t).map stripBreakout := by
  obtain ⟨p1, p2, p3⟩ := t
  unfold triSymCandidate
  dsimp only
  split_ifs <;> rfl

theorem triAscCandidate_closes_irrel (highs lows closes closes' : List ℚ)
    (minIdx : List ℕ) (md : ℕ) (t : ℕ × ℕ × ℕ) :
    (triAscCandidate highs lows closes minIdx md t).map stripBreakout =
      (triAscCandidate highs lows closes' minIdx md t).map stripBreakout := by
  obtain ⟨p1, p2, p3⟩ := t
  unfold triAscCandidate
  dsimp only
  split_ifs <;> rfl

theorem triDescCandidate_closes_irrel (highs lows closes closes' : List ℚ)
    (maxIdx : List ℕ) (md : ℕ) (t : ℕ × ℕ × ℕ) :
    (triDescCandidate highs lows closes maxIdx md t).map stripBreakout =
      (triDescCandidate highs lows closes' maxIdx md t).map stripBreakout := by
  obtain ⟨t1, t2, t3⟩ := t
  unfold triDescCandidate
  dsimp only
  split_ifs <;> rfl

theorem detect_triangle_breakout_independent (data data' : List Bar) (s w : ℕ)
    (hH : highsL data = highsL data') (hL : lowsL data = lowsL data') :
    (detect_triangle data s w).map stripBreakout =
      (detect_triangle data' s w).map stripBreakout := by
  unfold detect_triangle
  dsimp only
  rw [← hH, ← hL]
  by_cases hlen : (findExtrema (highsL data) .peak (max (w / 8) 1)).length < 3 ∨
      (findExtrema (lowsL data) .trough (max (w / 8) 1)).length < 3
  · rw [if_pos hlen, if_pos hlen]
  · rw [if_neg hlen, if_neg hlen, List.map_append, List.map_append, List.map_append,
      List.map_append]
    rw [List.map_filterMap, List.map_filterMap, List.map_filterMap, List.map_filterMap,
      List.map_filterMap, List.map_filterMap]
    rw [List.filterMap_congr (fun t _ => triSymCandidate_closes_irrel (highsL data)
        (lowsL data) (closesL data) (closesL data') _ _ _ t),
      List.filterMap_congr (fun t _ => triAscCandidate_closes_irrel (highsL data)
        (lowsL data) (closesL data) (closesL data') _ _ t),
      List.filterMap_congr (fun t _ => triDescCandidate_closes_irrel (highsL data)
        (lowsL data) (closesL data) (closesL data') _ _ t)]

/-- Counterexample to C5: the triangle detector returns an occurrence
whose confirmation (breakout) predicate is false: on `ascTriBars` the one
emitted ascending triangle carries `breakout = false`, so not every
returned occurrence passes its post-pattern price-action test. -/
theorem triangle_unconfirmed_emission_counterexample :
    (detect_triangle ascTriBars 10 8).map Triangle.breakout = [false] ∧
    detect_triangle ascTriBars 10 8 ≠ [] := by
  refine ⟨?_, ?_⟩ <;> with_unfolding_all decide

/-- C5 (amended): the double bottom, double top, head-and-shoulders and
inverse head-and-shoulders detectors emit only candidates whose
confirmation predicate holds; the triangle detector instead does not
filter on the breakout test: its output, disregarding the breakout flag,
is independent of the Close column (the only column the breakout test
consults), and occurrences whose breakout flag is false are returned, as
the emitted `ascTriBars` occurrence exhibits. -/
theorem emitted_patterns_confirmed :
    (∀ (data : List Bar) (s w : ℕ) (l : List (ℕ × ℕ)),
      detect_double_bottom data s w = some l → ∀ p ∈ l,
        dbConfirm (closesL data) p.2 ((lowsL data).getD p.2 0) = some true) ∧
    (∀ (data : List Bar) (s w : ℕ) (l : List (ℕ × ℕ)),
      detect_double_top data s w = some l → ∀ p ∈ l,
        dtConfirm (closesL data) p.2 ((highsL data).getD p.2 0) = some true) ∧
    (∀ (data : List Bar) (s w : ℕ) (l : List (ℕ × ℕ × ℕ × ℕ × ℕ)),
      detect_head_and_shoulders data s w = some l → ∀ y ∈ l,
        hsConfirm (closesL data) y.2.2.2.2 ((lowsL data).getD y.2.1 0)
          ((lowsL data).getD y.2.2.2.1 0) = some true) ∧
    (∀ (data : List Bar) (s w : ℕ) (l : List (ℕ × ℕ × ℕ × ℕ × ℕ)),
      detect_inverse_head_and_shoulders data s w = some l → ∀ y ∈ l,
        ihsConfirm (closesL data) y.2.2.2.2 ((highsL data).getD y.2.1 0)
          ((highsL data).getD y.2.2.2.1 0) = some true) ∧
    (∀ (data data' : List Bar) (s w : ℕ), highsL data = highsL data' →
      lowsL data = lowsL data' →
      (detect_triangle data s w).map stripBreakout =
        (detect_triangle data' s w).map stripBreakout) ∧
    ((detect_triangle ascTriBars 10 8).map Triangle.breakout = [false] ∧
      detect_triangle ascTriBars 10 8 ≠ []) := by
  refine ⟨?_, ?_, ?_, ?_, detect_triangle_breakout_independent, ?_, ?_⟩
  · intro data s w l hl p hp
    unfold detect_double_bottom at hl
    rw [mem_of_filterCandidates hl] at hp
    obtain ⟨a, b⟩ := p
    exact dbCandidate_confirm hp.2
  · intro data s w l hl p hp
    unfold detect_double_top at hl
    rw [mem_of_filterCandidates hl] at hp
    obtain ⟨a, b⟩ := p
    exact dtCandidate_confirm hp.2
  · intro data s w l hl y hy
    unfold detect_head_and_shoulders at hl
    rw [mem_of_collectCandidates hl] at hy
    obtain ⟨⟨q1, q2, q3⟩, hq, hcand⟩ := hy
    obtain ⟨u1, u2, hneck, rfl, hconf⟩ := hsCandidate_emits hcand
    exact hconf
  · intro data s w l hl y hy
    unfold detect_inverse_head_and_shoulders at hl
    rw [mem_of_collectCandidates hl] at hy
    obtain ⟨⟨q1, q2, q3⟩, hq, hcand⟩ := hy
    obtain ⟨u1, u2, hneck, rfl, hconf⟩ := ihsCandidate_emits hcand
    exact hconf
  · with_unfolding_all decide
  · with_unfolding_all decide

set_option maxRecDepth 100000 in
/-- Witness for the amended C5: the one pattern emitted on `dbExample` and
the one emitted on `hsWitBars` both satisfy their confirmation
predicates. -/
theorem emitted_patterns_confirmed_witness :
    detect_double_bottom dbExample 5 20 = some [(5, 17)] ∧
    (5, 17) ∈ [((5 : ℕ), (17 : ℕ))] ∧
    dbConfirm (closesL dbExample) 17 ((lowsL dbExample).getD 17 0) = some true ∧
    detect_head_and_shoulders hsWitBars 1 6 = some [(1, 2, 4, 6, 7)] ∧
    hsConfirm (closesL hsWitBars) 7 ((lowsL hsWitBars).getD 2 0)
      ((lowsL hsWitBars).getD 6 0) = some true ∧
    highsL ascTriBars = highsL ascTriBarsAltClose ∧
    lowsL ascTriBars = lowsL ascTriBarsAltClose ∧
    (detect_triangle ascTriBars 10 8).map stripBreakout =
      (detect_triangle ascTriBarsAltClose 10 8).map stripBreakout := by
  have h1 : detect_double_bottom dbExample 5 20 = some [(5, 17)] := by
    with_unfolding_all decide
  have h2 : detect_head_and_shoulders hsWitBars 1 6 = some [(1, 2, 4, 6, 7)] := by
    with_unfolding_all decide
  have hH : highsL ascTriBars = highsL ascTriBarsAltClose := by
    with_unfolding_all decide
  have hL : lowsL ascTriBars = lowsL ascTriBarsAltClose := by
    with_unfolding_all decide
  refine ⟨h1, List.mem_cons_self _ _, ?_, h2, ?_, hH, hL, ?_⟩
  · exact emitted_patterns_confirmed.1 dbExample 5 20 [(5, 17)] h1 (5, 17)
      (List.mem_cons_self _ _)
  · exact emitted_patterns_confirmed.2.2.1 hsWitBars 1 6 [(1, 2, 4, 6, 7)] h2
      (1, 2, 4, 6, 7) (List.mem_cons_self _ _)
  · exact emitted_patterns_confirmed.2.2.2.2.1 ascTriBars ascTriBarsAltClose 10 8 hH hL

theorem getD_replicate' {n i : ℕ} {c : ℚ} (h : i < n) :
    (List.replicate n c).getD i 0 = c := by
  rw [List.getD_eq_getElem?_getD, List.getElem?_replicate, if_pos h]
  rfl

theorem lowsL_constBars (n : ℕ) (c : ℚ) : lowsL (constBars n c) = List.replicate n c := by
  simp [lowsL, constBars]

theorem highsL_constBars (n : ℕ) (c : ℚ) : highsL (constBars n c) = List.replicate n c := by
  simp [highsL, constBars]

theorem closesL_constBars (n : ℕ) (c : ℚ) : closesL (constBars n c) = List.replicate n c := by
  simp [closesL, constBars]

theorem foldl_max_replicate (k : ℕ) (c : ℚ) : (List.replicate k c).foldl max c = c := by
  induction k with
  | zero => rfl
  | succ m ih => rw [List.replicate_succ, List.foldl_cons, max_self]; exact ih

theorem foldl_min_replicate (k : ℕ) (c : ℚ) : (List.replicate k c).foldl min c = c := by
  induction k with
  | zero => rfl
  | succ m ih => rw [List.replicate_succ, List.foldl_cons, min_self]; exact ih

theorem listMaxQ_replicate {k : ℕ} (hk : 0 < k) (c : ℚ) :
    listMaxQ (List.replicate k c) = some c := by
  match k, hk with
  | m + 1, _ =>
    rw [List.replicate_succ]
    show some ((List.replicate m c).foldl max c) = some c
    rw [foldl_max_replicate]

theorem listMinQ_replicate {k : ℕ} (hk : 0 < k) (c : ℚ) :
    listMinQ (List.replicate k c) = some c := by
  match k, hk with
  | m + 1, _ =>
    rw [List.replicate_succ]
    show some ((List.replicate m c).foldl min c) = some c
    rw [foldl_min_replicate]

theorem sliceL_replicate (n a b : ℕ) (c : ℚ) :
    sliceL (List.replicate n c) a b = List.replicate (min (b - a) (n - a)) c := by
  unfold sliceL
  rw [List.drop_replicate, List.take_replicate]

theorem stdRatioGT_const (c q : ℚ) : stdRatioGT [c, c, c] q = false := by
  have hmean : meanQ [c, c, c] = c := by
    unfold meanQ
    simp only [List.sum_cons, List.sum_nil, List.length_cons, List.length_nil]
    push_cast
    ring_nf
  have hvar : varQ [c, c, c] = 0 := by
    unfold varQ
    rw [hmean]
    simp
  unfold stdRatioGT
  rw [hmean, hvar]
  by_cases h1 : 0 < c
  · rw [if_pos h1]
    simp only [decide_eq_false_iff_not, not_lt]
    positivity
  · rw [if_neg h1]
    by_cases h2 : c < 0
    · rw [if_pos h2]
    · rw [if_neg h2]
      simp

theorem detect_double_bottom_const (n : ℕ) (c : ℚ) (s w : ℕ) :
    detect_double_bottom (constBars n c) s w = some [] := by
  unfold detect_double_bottom
  apply filterCandidates_all_false
  rintro ⟨a, b⟩ hc
  rw [mem_pairsAsc (findExtrema_sorted _ _ _)] at hc
  obtain ⟨ha, hb, hab⟩ := hc
  have han : a < n := by
    have h := mem_findExtrema_lt ha
    rwa [lowsL_constBars, List.length_replicate] at h
  rw [lowsL_constBars, closesL_constBars]
  unfold dbCandidate
  dsimp only
  by_cases h1 : b - a < dbMinDistance w s
  · rw [if_pos h1]
  · rw [if_neg h1]
    rw [getD_replicate' han, getD_replicate' (show b < n from by
      have h := mem_findExtrema_lt hb
      rwa [lowsL_constBars, List.length_replicate] at h)]
    by_cases h2 : dbTolerance s < |c - c| / c
    · rw [if_pos h2]
    · rw [if_neg h2]
      rw [sliceL_replicate, listMaxQ_replicate (show 0 < min (b - a) (n - a) by omega)]
      dsimp only
      rw [if_pos (Or.inl (show (c - c) / c < 0.02 by rw [sub_self, zero_div]; norm_num))]

theorem detect_double_top_const (n : ℕ) (c : ℚ) (s w : ℕ) :
    detect_double_top (constBars n c) s w = some [] := by
  unfold detect_double_top
  apply filterCandidates_all_false
  rintro ⟨a, b⟩ hc
  rw [mem_pairsAsc (findExtrema_sorted _ _ _)] at hc
  obtain ⟨ha, hb, hab⟩ := hc
  have han : a < n := by
    have h := mem_findExtrema_lt ha
    rwa [highsL_constBars, List.length_replicate] at h
  rw [highsL_constBars, closesL_constBars]
  unfold dtCandidate
  dsimp only
  by_cases h1 : b - a < dbMinDistance w s
  · rw [if_pos h1]
  · rw [if_neg h1]
    rw [getD_replicate' han, getD_replicate' (show b < n from by
      have h := mem_findExtrema_lt hb
      rwa [highsL_constBars, List.length_replicate] at h)]
    by_cases h2 : dbTolerance s < |c - c| / c
    · rw [if_pos h2]
    · rw [if_neg h2]
      rw [sliceL_replicate, listMinQ_replicate (show 0 < min (b - a) (n - a) by omega)]
      dsimp only
      rw [if_pos (Or.inl (show (c - c) / c < 0.02 by rw [sub_self, zero_div]; norm_num))]

theorem detect_head_and_shoulders_const (n : ℕ) (c : ℚ) (s w : ℕ) :
    detect_head_and_shoulders (constBars n c) s w = some [] := by
  unfold detect_head_and_shoulders
  apply collectCandidates_all_none
  rintro ⟨p1, p2, p3⟩ hc
  have hmem := mem_triplesConsec hc
  have h1n : p1 < n := by
    have h := mem_findExtrema_lt hmem.1
    rwa [highsL_constBars, List.length_replicate] at h
  have h2n : p2 < n := by
    have h := mem_findExtrema_lt hmem.2.1
    rwa [highsL_constBars, List.length_replicate] at h
  rw [highsL_constBars, lowsL_constBars, closesL_constBars]
  unfold hsCandidate
  dsimp only
  by_cases hsp : p2 - p1 < hsMinDistance w s ∨ p3 - p2 < hsMinDistance w s
  · rw [if_pos hsp]
  · rw [if_neg hsp]
    rw [getD_replicate' h2n, getD_replicate' h1n]
    rw [if_pos (Or.inl (le_refl c))]

theorem detect_inverse_head_and_shoulders_const (n : ℕ) (c : ℚ) (s w : ℕ) :
    detect_inverse_head_and_shoulders (constBars n c) s w = some [] := by
  unfold detect_inverse_head_and_shoulders
  apply collectCandidates_all_none
  rintro ⟨t1, t2, t3⟩ hc
  have hmem := mem_triplesConsec hc
  have h1n : t1 < n := by
    have h := mem_findExtrema_lt hmem.1
    rwa [lowsL_constBars, List.length_replicate] at h
  have h2n : t2 < n := by
    have h := mem_findExtrema_lt hmem.2.1
    rwa [lowsL_constBars, List.length_replicate] at h
  rw [highsL_constBars, lowsL_constBars, closesL_constBars]
  unfold ihsCandidate
  dsimp only
  by_cases hsp : t2 - t1 < hsMinDistance w s ∨ t3 - t2 < hsMinDistance w s
  · rw [if_pos hsp]
  · rw [if_neg hsp]
    rw [getD_replicate' h1n, getD_replicate' h2n]
    rw [if_pos (Or.inl (le_refl c))]

theorem triSymCandidate_const {n : ℕ} {c : ℚ} {minIdx : List ℕ} {md w : ℕ}
    {t : ℕ × ℕ × ℕ} (h1n : t.1 < n) (h2n : t.2.1 < n) :
    triSymCandidate (List.replicate n c) (List.replicate n c) (List.replicate n c)
      minIdx md w t = none := by
  obtain ⟨p1, p2, p3⟩ := t
  unfold triSymCandidate
  dsimp only
  by_cases hd : p3 - p1 < md
  · rw [if_pos hd]
  · rw [if_neg hd]
    rw [getD_replicate' h1n, getD_replicate' h2n]
    rw [if_pos (Or.inl (le_refl c))]

theorem triAscCandidate_const {n : ℕ} {c : ℚ} {minIdx : List ℕ} {md : ℕ}
    {t : ℕ × ℕ × ℕ} (h1n : t.1 < n) (h2n : t.2.1 < n) (h3n : t.2.2 < n)
    (hsub : ∀ i ∈ minIdx, i < n) :
    triAscCandidate (List.replicate n c) (List.replicate n c) (List.replicate n c)
      minIdx md t = none := by
  obtain ⟨p1, p2, p3⟩ := t
  unfold triAscCandidate
  dsimp only
  by_cases hd : p3 - p1 < md
  · rw [if_pos hd]
  · rw [if_neg hd]
    rw [getD_replicate' h1n, getD_replicate' h2n, getD_replicate' h3n,
      stdRatioGT_const]
    rw [if_neg (by simp)]
    by_cases hT : (minIdx.filter fun x => decide (p1 < x) && decide (x < p3)).length < 2
    · rw [if_pos hT]
    · rw [if_neg hT]
      obtain ⟨t1, t2, rest, heq⟩ : ∃ t1 t2 rest,
          minIdx.filter (fun x => decide (p1 < x) && decide (x < p3)) =
            t1 :: t2 :: rest := by
        match hq : minIdx.filter fun x => decide (p1 < x) && decide (x < p3), hT with
        | t1 :: t2 :: rest, _ => exact ⟨t1, t2, rest, rfl⟩
        | [], hT => simp at hT
        | [t1], hT => simp at hT
      have ht1n : t1 < n := hsub t1 (List.mem_filter.1 (heq ▸ List.mem_cons_self _ _)).1
      have ht2n : t2 < n := hsub t2 (List.mem_filter.1 (heq ▸
        List.mem_cons_of_mem _ (List.mem_cons_self _ _))).1
      rw [heq, List.map_cons, List.map_cons, getD_replicate' ht1n, getD_replicate' ht2n]
      rw [if_pos (by simp [strictIncr])]

theorem triDescCandidate_const {n : ℕ} {c : ℚ} {maxIdx : List ℕ} {md : ℕ}
    {t : ℕ × ℕ × ℕ} (h1n : t.1 < n) (h2n : t.2.1 < n) (h3n : t.2.2 < n)
    (hsub : ∀ i ∈ maxIdx, i < n) :
    triDescCandidate (List.replicate n c) (List.replicate n c) (List.replicate n c)
      maxIdx md t = none := by
  obtain ⟨t1, t2, t3⟩ := t
  unfold triDescCandidate
  dsimp only
  by_cases hd : t3 - t1 < md
  · rw [if_pos hd]
  · rw [if_neg hd]
    rw [getD_replicate' h1n, getD_replicate' h2n, getD_replicate' h3n,
      stdRatioGT_const]
    rw [if_neg (by simp)]
    by_cases hT : (maxIdx.filter fun x => decide (t1 < x) && decide (x < t3)).length < 2
    · rw [if_pos hT]
    · rw [if_neg hT]
      obtain ⟨p1, p2, rest, heq⟩ : ∃ p1 p2 rest,
          maxIdx.filter (fun x => decide (t1 < x) && decide (x < t3)) =
            p1 :: p2 :: rest := by
        match hq : maxIdx.filter fun x => decide (t1 < x) && decide (x < t3), hT with
        | p1 :: p2 :: rest, _ => exact ⟨p1, p2, rest, rfl⟩
        | [], hT => simp at hT
        | [p1], hT => simp at hT
      have hp1n : p1 < n := hsub p1 (List.mem_filter.1 (heq ▸ List.mem_cons_self _ _)).1
      have hp2n : p2 < n := hsub p2 (List.mem_filter.1 (heq ▸
        List.mem_cons_of_mem _ (List.mem_cons_self _ _))).1
      rw [heq, List.map_cons, List.map_cons, getD_replicate' hp1n, getD_replicate' hp2n]
      rw [if_pos (by simp [strictDecr])]

theorem detect_triangle_const (n : ℕ) (c : ℚ) (s w : ℕ) :
    detect_triangle (constBars n c) s w = [] := by
  unfold detect_triangle
  rw [highsL_constBars, lowsL_constBars, closesL_constBars]
  by_cases hlen : (findExtrema (List.replicate n c) .peak (max (w / 8) 1)).length < 3 ∨
      (findExtrema (List.replicate n c) .trough (max (w / 8) 1)).length < 3
  · rw [if_pos hlen]
  · rw [if_neg hlen]
    have hsubP : ∀ i ∈ findExtrema (List.replicate n c) .peak (max (w / 8) 1), i < n := by
      intro i hi
      have h := mem_findExtrema_lt hi
      rwa [List.length_replicate] at h
    have hsubT : ∀ i ∈ findExtrema (List.replicate n c) .trough (max (w / 8) 1), i < n := by
      intro i hi
      have h := mem_findExtrema_lt hi
      rwa [List.length_replicate] at h
    rw [List.filterMap_eq_nil_iff.2 (fun t ht => by
        have hm := mem_triplesConsec ht
        exact triSymCandidate_const (hsubP _ hm.1) (hsubP _ hm.2.1)),
      List.filterMap_eq_nil_iff.2 (fun t ht => by
        have hm := mem_triplesConsec ht
        exact triAscCandidate_const (hsubP _ hm.1) (hsubP _ hm.2.1) (hsubP _ hm.2.2) hsubT),
      List.filterMap_eq_nil_iff.2 (fun t ht => by
        have hm := mem_triplesConsec ht
        exact triDescCandidate_const (hsubT _ hm.1) (hsubT _ hm.2.1) (hsubT _ hm.2.2) hsubP)]
    rfl

/-- Counterexample to C7: on a constant series of 7 bars at price 10 with
sensitivity 5, `find_support_resistance` returns every index as both a
confirmed support and a confirmed resistance (each index has 6 touches,
more than the 4 required), not an empty result. -/
theorem support_resistance_const_counterexample :
    find_support_resistance (constBars 7 10) 5 30 =
      ([0, 1, 2, 3, 4, 5, 6], [0, 1, 2, 3, 4, 5, 6]) ∧
    find_support_resistance (constBars 7 10) 5 30 ≠ ([], []) := by
  refine ⟨?_, ?_⟩ <;> with_unfolding_all decide

/-- On every constant-price series, for every sensitivity and window,
the five shape detectors return empty results. -/
theorem detectors_empty_on_const (n : ℕ) (c : ℚ) (s w : ℕ) :
    detect_double_bottom (constBars n c) s w = some [] ∧
    detect_double_top (constBars n c) s w = some [] ∧
    detect_head_and_shoulders (constBars n c) s w = some [] ∧
    detect_inverse_head_and_shoulders (constBars n c) s w = some [] ∧
    detect_triangle (constBars n c) s w = [] :=
  ⟨detect_double_bottom_const n c s w, detect_double_top_const n c s w,
    detect_head_and_shoulders_const n c s w,
    detect_inverse_head_and_shoulders_const n c s w,
    detect_triangle_const n c s w⟩

/-- C9: every detector is total over well-formed series — the four
`Option`-valued detectors (whose embedding makes each potentially raising
numpy call explicit) never produce the exception value `none`, the
triangle detector is total by construction, and when the series yields too
few extrema for a detector's shape each detector returns an empty result
rather than failing. -/
theorem detectors_total (data : List Bar) (s w : ℕ) :
    (∃ l, detect_double_bottom data s w = some l) ∧
    (∃ l, detect_double_top data s w = some l) ∧
    (∃ l, detect_head_and_shoulders data s w = some l) ∧
    (∃ l, detect_inverse_head_and_shoulders data s w = some l) ∧
    ((findExtrema (lowsL data) .trough (max (w / 4) 1)).length < 2 →
      detect_double_bottom data s w = some []) ∧
    ((findExtrema (highsL data) .peak (max (w / 4) 1)).length < 2 →
      detect_double_top data s w = some []) ∧
    ((findExtrema (highsL data) .peak (max (w / 6) 1)).length < 3 →
      detect_head_and_shoulders data s w = some []) ∧
    ((findExtrema (lowsL data) .trough (max (w / 6) 1)).length < 3 →
      detect_inverse_head_and_shoulders data s w = some []) ∧
    ((findExtrema (highsL data) .peak (max (w / 8) 1)).length < 3 ∨
        (findExtrema (lowsL data) .trough (max (w / 8) 1)).length < 3 →
      detect_triangle data s w = []) := by
  refine ⟨detect_double_bottom_isSome data s w, detect_double_top_isSome data s w,
    detect_head_and_shoulders_isSome data s w,
    detect_inverse_head_and_shoulders_isSome data s w, ?_, ?_, ?_, ?_, ?_⟩
  · intro h
    unfold detect_double_bottom
    dsimp only
    rw [pairsAsc_short h]
    rfl
  · intro h
    unfold detect_double_top
    dsimp only
    rw [pairsAsc_short h]
    rfl
  · intro h
    unfold detect_head_and_shoulders
    dsimp only
    rw [triplesConsec_short h]
    rfl
  · intro h
    unfold detect_inverse_head_and_shoulders
    dsimp only
    rw [triplesConsec_short h]
    rfl
  · intro h
    unfold detect_triangle
    dsimp only
    rw [if_pos h]

/-- Witness for C9 at the empty series. -/
theorem detectors_total_witness :
    (∃ l, detect_double_bottom [] 5 20 = some l) ∧
    (∃ l, detect_double_top [] 5 20 = some l) ∧
    (∃ l, detect_head_and_shoulders [] 5 30 = some l) ∧
    (∃ l, detect_inverse_head_and_shoulders [] 5 30 = some l) ∧
    (findExtrema (lowsL []) .trough (max (20 / 4) 1)).length < 2 ∧
    detect_double_bottom [] 5 20 = some [] ∧
    (findExtrema (highsL []) .peak (max (20 / 4) 1)).length < 2 ∧
    detect_double_top [] 5 20 = some [] ∧
    (findExtrema (highsL []) .peak (max (30 / 6) 1)).length < 3 ∧
    detect_head_and_shoulders [] 5 30 = some [] ∧
    (findExtrema (lowsL []) .trough (max (30 / 6) 1)).length < 3 ∧
    detect_inverse_head_and_shoulders [] 5 30 = some [] ∧
    ((findExtrema (highsL []) .peak (max (40 / 8) 1)).length < 3 ∨
      (findExtrema (lowsL []) .trough (max (40 / 8) 1)).length < 3) ∧
    detect_triangle [] 5 40 = [] :=
  ⟨(detectors_total [] 5 20).1, (detectors_total [] 5 20).2.1,
    (detectors_total [] 5 30).2.2.1, (detectors_total [] 5 30).2.2.2.1,
    by with_unfolding_all decide,
    (detectors_total [] 5 20).2.2.2.2.1 (by with_unfolding_all decide),
    by with_unfolding_all decide,
    (detectors_total [] 5 20).2.2.2.2.2.1 (by with_unfolding_all decide),
    by with_unfolding_all decide,
    (detectors_total [] 5 30).2.2.2.2.2.2.1 (by with_unfolding_all decide),
    by with_unfolding_all decide,
    (detectors_total [] 5 30).2.2.2.2.2.2.2.1 (by with_unfolding_all decide),
    by with_unfolding_all decide,
    (detectors_total [] 5 40).2.2.2.2.2.2.2.2 (by with_unfolding_all decide)⟩

theorem headD_mem {l : List ℕ} (h : l ≠ []) (d : ℕ) : l.headD d ∈ l := by
  cases l with
  | nil => exact absurd rfl h
  | cons x xs => exact List.mem_cons_self _ _

theorem getLastD_mem {l : List ℕ} (h : l ≠ []) (d : ℕ) : l.getLastD d ∈ l := by
  rw [List.getLastD_eq_getLast?, List.getLast?_eq_getLast l h]
  exact List.getLast_mem h

theorem hsNeckTroughs_bounds {lows : List ℚ} {q1 q2 q3 u1 u2 : ℕ}
    (h12 : q1 < q2) (h23 : q2 < q3)
    (h : hsNeckTroughs lows q1 q2 q3 = some (u1, u2)) :
    q1 ≤ u1 ∧ u1 < q2 ∧ q2 ≤ u2 ∧ u2 < q3 := by
  unfold hsNeckTroughs at h
  split at h
  · rename_i i j hi hj
    injection h with h
    obtain ⟨rfl, rfl⟩ : q1 + i = u1 ∧ q2 + j = u2 := by
      have h1 := congrArg Prod.fst h
      have h2 := congrArg Prod.snd h
      exact ⟨h1, h2⟩
    have hil := npArgmin_lt_length hi
    have hjl := npArgmin_lt_length hj
    rw [sliceL_length] at hil hjl
    omega
  · cases h

theorem ihsNeckPeaks_bounds {highs : List ℚ} {q1 q2 q3 u1 u2 : ℕ}
    (h12 : q1 < q2) (h23 : q2 < q3)
    (h : ihsNeckPeaks highs q1 q2 q3 = some (u1, u2)) :
    q1 ≤ u1 ∧ u1 < q2 ∧ q2 ≤ u2 ∧ u2 < q3 := by
  unfold ihsNeckPeaks at h
  split at h
  · rename_i i j hi hj
    injection h with h
    obtain ⟨rfl, rfl⟩ : q1 + i = u1 ∧ q2 + j = u2 := by
      have h1 := congrArg Prod.fst h
      have h2 := congrArg Prod.snd h
      exact ⟨h1, h2⟩
    have hil := npArgmax_lt_length hi
    have hjl := npArgmax_lt_length hj
    rw [sliceL_length] at hil hjl
    omega
  · cases h

theorem triSymCandidate_emits {highs lows closes : List ℚ} {minIdx : List ℕ}
    {md w : ℕ} {q1 q2 q3 : ℕ} {tri : Triangle}
    (h : triSymCandidate highs lows closes minIdx md w (q1, q2, q3) = some tri) :
    ∃ t1i t2i, tri.points = [q1, t1i, q2, t2i, q3] ∧ t1i ∈ minIdx ∧ t2i ∈ minIdx := by
  unfold triSymCandidate at h
  dsimp only at h
  split at h
  · cases h
  · split at h
    · cases h
    · split at h
      · cases h
      · rename_i hlen
        have hne : (minIdx.filter fun x => decide (q1 < x) && decide (x < q3)) ≠ [] := by
          intro hcon
          rw [hcon] at hlen
          simp at hlen
        split at h
        · cases h
        · split at h
          · cases h
          · split at h
            · split at h
              · cases h
              · injection h with h
                subst h
                refine ⟨_, _, rfl, ?_, ?_⟩
                · exact (List.mem_filter.1 (headD_mem hne 0)).1
                · exact (List.mem_filter.1 (getLastD_mem hne 0)).1
            · cases h

theorem triAscCandidate_emits {highs lows closes : List ℚ} {minIdx : List ℕ}
    {md : ℕ} {q1 q2 q3 : ℕ} {tri : Triangle}
    (h : triAscCandidate highs lows closes minIdx md (q1, q2, q3) = some tri) :
    ∃ t1i t2i, tri.points = [q1, t1i, q2, t2i, q3] ∧ t1i ∈ minIdx ∧ t2i ∈ minIdx := by
  unfold triAscCandidate at h
  dsimp only at h
  split at h
  · cases h
  · split at h
    · cases h
    · split at h
      · cases h
      · rename_i hlen
        have hne : (minIdx.filter fun x => decide (q1 < x) && decide (x < q3)) ≠ [] := by
          intro hcon
          rw [hcon] at hlen
          simp at hlen
        split at h
        · cases h
        · injection h with h
          subst h
          refine ⟨_, _, rfl, ?_, ?_⟩
          · exact (List.mem_filter.1 (headD_mem hne 0)).1
          · exact (List.mem_filter.1 (getLastD_mem hne 0)).1

theorem triDescCandidate_emits {highs lows closes : List ℚ} {maxIdx : List ℕ}
    {md : ℕ} {q1 q2 q3 : ℕ} {tri : Triangle}
    (h : triDescCandidate highs lows closes maxIdx md (q1, q2, q3) = some tri) :
    ∃ p1i p2i, tri.points = [p1i, q1, p2i, q2, q3] ∧ p1i ∈ maxIdx ∧ p2i ∈ maxIdx := by
  unfold triDescCandidate at h
  dsimp only at h
  split at h
  · cases h
  · split at h
    · cases h
    · split at h
      · cases h
      · rename_i hlen
        have hne : (maxIdx.filter fun x => decide (q1 < x) && decide (x < q3)) ≠ [] := by
          intro hcon
          rw [hcon] at hlen
          simp at hlen
        split at h
        · cases h
        · injection h with h
          subst h
          refine ⟨_, _, rfl, ?_, ?_⟩
          · exact (List.mem_filter.1 (headD_mem hne 0)).1
          · exact (List.mem_filter.1 (getLastD_mem hne 0)).1

/-- Mirror image of `dbExample`: a double-top series with peaks of value 15
at indices 5 and 17. -/
def dtExample : List Bar :=
  [10, 11, 12, 13, 14, 15, 14, 13, 12, 11, 10, 9, 10, 11, 12, 13, 14, 15, 14, 12, 10, 8].map
    fun q => ⟨q, q, q⟩

/-- Ten-bar series with an inverse head-and-shoulders: troughs at indices
1, 4, 7 (lows 5, 2, 5) and neckline peaks at indices 2 and 6 (highs 16,
15), confirmed through the fallback comparison (final close 11 above the
close 10 at the third trough). -/
def ihsExample : List Bar :=
  [⟨11, 10, 10⟩, ⟨11, 5, 10⟩, ⟨16, 10, 10⟩, ⟨11, 10, 10⟩, ⟨11, 2, 10⟩,
   ⟨11, 10, 10⟩, ⟨15, 10, 10⟩, ⟨11, 5, 10⟩, ⟨11, 10, 10⟩, ⟨11, 10, 11⟩]

/-- Counterexample to C8: the descending triangle emitted on `descTriBars`
lists its defining extrema as `[2, 1, 6, 4, 8]` — the first intervening
peak (index 2) precedes the first trough (index 1) in the list although it
comes after it in the series, so the points list is not in ascending index
order. -/
theorem pattern_points_order_counterexample :
    detect_triangle descTriBars 10 8 =
      [⟨.descending, [2, 1, 6, 4, 8], 15, 50, false⟩] ∧
    ¬ List.Chain' (· ≤ ·) [2, 1, 6, 4, 8] := by
  constructor
  · with_unfolding_all decide
  · intro hcon
    have h := (List.chain'_cons.1 hcon).1
    omega

/-- C8 (amended): double bottom/top patterns list two strictly increasing
in-bounds indices; head-and-shoulders and inverse head-and-shoulders
patterns list their five defining indices in weakly ascending order
(`p1 ≤ t1 < p2 ≤ t2 < p3`, ties possible when a neckline extremum falls on
a peak/trough index) with all indices in bounds; triangle occurrences keep
every point index in bounds, but their points lists are not guaranteed to
be in ascending order (the descending variant lists its first intervening
peak before the first trough). -/
theorem pattern_indices_bounds :
    (∀ (data : List Bar) (s w : ℕ) (l : List (ℕ × ℕ)),
      detect_double_bottom data s w = some l → ∀ p ∈ l,
        p.1 < p.2 ∧ p.2 < data.length) ∧
    (∀ (data : List Bar) (s w : ℕ) (l : List (ℕ × ℕ)),
      detect_double_top data s w = some l → ∀ p ∈ l,
        p.1 < p.2 ∧ p.2 < data.length) ∧
    (∀ (data : List Bar) (s w : ℕ) (l : List (ℕ × ℕ × ℕ × ℕ × ℕ)),
      detect_head_and_shoulders data s w = some l → ∀ y ∈ l,
        y.1 ≤ y.2.1 ∧ y.2.1 < y.2.2.1 ∧ y.2.2.1 ≤ y.2.2.2.1 ∧
        y.2.2.2.1 < y.2.2.2.2 ∧ y.2.2.2.2 < data.length) ∧
    (∀ (data : List Bar) (s w : ℕ) (l : List (ℕ × ℕ × ℕ × ℕ × ℕ)),
      detect_inverse_head_and_shoulders data s w = some l → ∀ y ∈ l,
        y.1 ≤ y.2.1 ∧ y.2.1 < y.2.2.1 ∧ y.2.2.1 ≤ y.2.2.2.1 ∧
        y.2.2.2.1 < y.2.2.2.2 ∧ y.2.2.2.2 < data.length) ∧
    (∀ (data : List Bar) (s w : ℕ), ∀ tri ∈ detect_triangle data s w,
      ∀ i ∈ tri.points, i < data.length) := by
  refine ⟨?_, ?_, ?_, ?_, ?_⟩
  · intro data s w l hl p hp
    unfold detect_double_bottom at hl
    rw [mem_of_filterCandidates hl] at hp
    obtain ⟨hpair, _⟩ := hp
    rw [mem_pairsAsc (findExtrema_sorted _ _ _)] at hpair
    refine ⟨hpair.2.2, ?_⟩
    have h := mem_findExtrema_lt hpair.2.1
    rwa [length_lowsL] at h
  · intro data s w l hl p hp
    unfold detect_double_top at hl
    rw [mem_of_filterCandidates hl] at hp
    obtain ⟨hpair, _⟩ := hp
    rw [mem_pairsAsc (findExtrema_sorted _ _ _)] at hpair
    refine ⟨hpair.2.2, ?_⟩
    have h := mem_findExtrema_lt hpair.2.1
    rwa [length_highsL] at h
  · intro data s w l hl y hy
    unfold detect_head_and_shoulders at hl
    rw [mem_of_collectCandidates hl] at hy
    obtain ⟨⟨q1, q2, q3⟩, hq, hcand⟩ := hy
    obtain ⟨u1, u2, hneck, rfl, _⟩ := hsCandidate_emits hcand
    have hlt := mem_triplesConsec_lt (findExtrema_sorted _ _ _) hq
    have hb := hsNeckTroughs_bounds hlt.1 hlt.2 hneck
    have hq3 : q3 < data.length := by
      have h := mem_findExtrema_lt (mem_triplesConsec hq).2.2
      rwa [length_highsL] at h
    exact ⟨hb.1, hb.2.1, hb.2.2.1, hb.2.2.2, hq3⟩
  · intro data s w l hl y hy
    unfold detect_inverse_head_and_shoulders at hl
    rw [mem_of_collectCandidates hl] at hy
    obtain ⟨⟨q1, q2, q3⟩, hq, hcand⟩ := hy
    obtain ⟨u1, u2, hneck, rfl, _⟩ := ihsCandidate_emits hcand
    have hlt := mem_triplesConsec_lt (findExtrema_sorted _ _ _) hq
    have hb := ihsNeckPeaks_bounds hlt.1 hlt.2 hneck
    have hq3 : q3 < data.length := by
      have h := mem_findExtrema_lt (mem_triplesConsec hq).2.2
      rwa [length_lowsL] at h
    exact ⟨hb.1, hb.2.1, hb.2.2.1, hb.2.2.2, hq3⟩
  · intro data s w tri htri i hi
    unfold detect_triangle at htri
    dsimp only at htri
    split at htri
    · simp at htri
    · rcases List.mem_append.1 htri with hAB | hC
      · rcases List.mem_append.1 hAB with hA | hB
        · obtain ⟨⟨q1, q2, q3⟩, hq, hcand⟩ := List.mem_filterMap.1 hA
          obtain ⟨t1i, t2i, hpts, ht1, ht2⟩ := triSymCandidate_emits hcand
          rw [hpts] at hi
          have hmem := mem_triplesConsec hq
          have hq1 : q1 < data.length := by
            have h := mem_findExtrema_lt hmem.1
            rwa [length_highsL] at h
          have hq2 : q2 < data.length := by
            have h := mem_findExtrema_lt hmem.2.1
            rwa [length_highsL] at h
          have hq3 : q3 < data.length := by
            have h := mem_findExtrema_lt hmem.2.2
            rwa [length_highsL] at h
          have ht1n : t1i < data.length := by
            have h := mem_findExtrema_lt ht1
            rwa [length_lowsL] at h
          have ht2n : t2i < data.length := by
            have h := mem_findExtrema_lt ht2
            rwa [length_lowsL] at h
          simp only [List.mem_cons, List.not_mem_nil, or_false] at hi
          rcases hi with rfl | rfl | rfl | rfl | rfl <;> assumption
        · obtain ⟨⟨q1, q2, q3⟩, hq, hcand⟩ := List.mem_filterMap.1 hB
          obtain ⟨t1i, t2i, hpts, ht1, ht2⟩ := triAscCandidate_emits hcand
          rw [hpts] at hi
          have hmem := mem_triplesConsec hq
          have hq1 : q1 < data.length := by
            have h := mem_findExtrema_lt hmem.1
            rwa [length_highsL] at h
          have hq2 : q2 < data.length := by
            have h := mem_findExtrema_lt hmem.2.1
            rwa [length_highsL] at h
          have hq3 : q3 < data.length := by
            have h := mem_findExtrema_lt hmem.2.2
            rwa [length_highsL] at h
          have ht1n : t1i < data.length := by
            have h := mem_findExtrema_lt ht1
            rwa [length_lowsL] at h
          have ht2n : t2i < data.length := by
            have h := mem_findExtrema_lt ht2
            rwa [length_lowsL] at h
          simp only [List.mem_cons, List.not_mem_nil, or_false] at hi
          rcases hi with rfl | rfl | rfl | rfl | rfl <;> assumption
      · obtain ⟨⟨q1, q2, q3⟩, hq, hcand⟩ := List.mem_filterMap.1 hC
        obtain ⟨p1i, p2i, hpts, hp1, hp2⟩ := triDescCandidate_emits hcand
        rw [hpts] at hi
        have hmem := mem_triplesConsec hq
        have hq1 : q1 < data.length := by
          have h := mem_findExtrema_lt hmem.1
          rwa [length_lowsL] at h
        have hq2 : q2 < data.length := by
          have h := mem_findExtrema_lt hmem.2.1
          rwa [length_lowsL] at h
        have hq3 : q3 < data.length := by
          have h := mem_findExtrema_lt hmem.2.2
          rwa [length_lowsL] at h
        have hp1n : p1i < data.length := by
          have h := mem_findExtrema_lt hp1
          rwa [length_highsL] at h
        have hp2n : p2i < data.length := by
          have h := mem_findExtrema_lt hp2
          rwa [length_highsL] at h
        simp only [List.mem_cons, List.not_mem_nil, or_false] at hi
        rcases hi with rfl | rfl | rfl | rfl | rfl <;> assumption

set_option maxRecDepth 400000 in
/-- Witness for the amended C8, instantiating every conjunct at a concrete
emitted pattern. -/
theorem pattern_indices_bounds_witness :
    detect_double_bottom dbExample 5 20 = some [(5, 17)] ∧
    ((5 : ℕ) < 17 ∧ 17 < dbExample.length) ∧
    detect_double_top dtExample 5 20 = some [(5, 17)] ∧
    ((5 : ℕ) < 17 ∧ 17 < dtExample.length) ∧
    detect_head_and_shoulders hsWitBars 1 6 = some [(1, 2, 4, 6, 7)] ∧
    ((1 : ℕ) ≤ 2 ∧ (2 : ℕ) < 4 ∧ (4 : ℕ) ≤ 6 ∧ (6 : ℕ) < 7 ∧ 7 < hsWitBars.length) ∧
    detect_inverse_head_and_shoulders ihsExample 1 6 = some [(1, 2, 4, 6, 7)] ∧
    ((1 : ℕ) ≤ 2 ∧ (2 : ℕ) < 4 ∧ (4 : ℕ) ≤ 6 ∧ (6 : ℕ) < 7 ∧ 7 < ihsExample.length) ∧
    (⟨.ascending, [1, 2, 4, 7, 8], 15, 100, false⟩ : Triangle) ∈
      detect_triangle ascTriBars 10 8 ∧
    (∀ i ∈ (⟨.ascending, [1, 2, 4, 7, 8], 15, 100, false⟩ : Triangle).points,
      i < ascTriBars.length) := by
  have hdb : detect_double_bottom dbExample 5 20 = some [(5, 17)] := by
    with_unfolding_all decide
  have hdt : detect_double_top dtExample 5 20 = some [(5, 17)] := by
    with_unfolding_all decide
  have hhs : detect_head_and_shoulders hsWitBars 1 6 = some [(1, 2, 4, 6, 7)] := by
    with_unfolding_all decide
  have hihs : detect_inverse_head_and_shoulders ihsExample 1 6 = some [(1, 2, 4, 6, 7)] := by
    with_unfolding_all decide
  have htri : (⟨.ascending, [1, 2, 4, 7, 8], 15, 100, false⟩ : Triangle) ∈
      detect_triangle ascTriBars 10 8 := by
    with_unfolding_all decide
  have h1 := pattern_indices_bounds.1 dbExample 5 20 [(5, 17)] hdb (5, 17)
    (List.mem_cons_self _ _)
  have h2 := pattern_indices_bounds.2.1 dtExample 5 20 [(5, 17)] hdt (5, 17)
    (List.mem_cons_self _ _)
  have h3 := pattern_indices_bounds.2.2.1 hsWitBars 1 6 [(1, 2, 4, 6, 7)] hhs
    (1, 2, 4, 6, 7) (List.mem_cons_self _ _)
  have h4 := pattern_indices_bounds.2.2.2.1 ihsExample 1 6 [(1, 2, 4, 6, 7)] hihs
    (1, 2, 4, 6, 7) (List.mem_cons_self _ _)
  have h5 := pattern_indices_bounds.2.2.2.2 ascTriBars 10 8
    ⟨.ascending, [1, 2, 4, 7, 8], 15, 100, false⟩ htri
  exact ⟨hdb, ⟨h1.1, h1.2⟩, hdt, ⟨h2.1, h2.2⟩, hhs,
    ⟨h3.1, h3.2.1, h3.2.2.1, h3.2.2.2.1, h3.2.2.2.2⟩, hihs,
    ⟨h4.1, h4.2.1, h4.2.2.1, h4.2.2.2.1, h4.2.2.2.2⟩, htri, h5⟩

theorem findExtrema_replicate (n : ℕ) (c : ℚ) (k : ExtKind) (o : ℕ) :
    findExtrema (List.replicate n c) k o = List.range n := by
  unfold findExtrema
  rw [List.length_replicate]
  apply List.filter_eq_self.2
  intro i hi
  unfold isExtremum
  apply decide_eq_true
  intro j hj h1 h2
  rw [List.length_replicate] at hj
  rw [getD_replicate' (List.mem_range.1 hi), getD_replicate' (List.mem_range.1 hj)]
  cases k <;> exact le_refl c

theorem srTouches_const {n i : ℕ} {c thr : ℚ} (hi : i < n) (hthr : 0 < thr) :
    srTouches (List.replicate n c) c i thr = n - 1 := by
  unfold srTouches
  rw [List.length_replicate]
  have hcong : ∀ j ∈ List.range n,
      (decide (j ≠ i) && decide (|(List.replicate n c).getD j 0 - c| / c < thr)) =
        (j != i) := by
    intro j hj
    rw [getD_replicate' (List.mem_range.1 hj), sub_self, abs_zero, zero_div]
    by_cases hji : j = i
    · subst hji
      simp
    · simp [hji, hthr]
  rw [List.filter_congr hcong, ← (List.nodup_range n).erase_eq_filter i,
    List.length_erase_of_mem (List.mem_range.2 hi), List.length_range]

theorem find_support_resistance_const (n : ℕ) (c : ℚ) (s w : ℕ)
    (hs2 : s ≤ 10) (hn : srNumTouches s + 1 ≤ n) :
    find_support_resistance (constBars n c) s w = (List.range n, List.range n) := by
  unfold find_support_resistance
  dsimp only
  rw [highsL_constBars, lowsL_constBars, findExtrema_replicate, findExtrema_replicate]
  have hthr : 0 < srPriceThreshold s := by
    unfold srPriceThreshold
    have hq : (s : ℚ) ≤ 10 := by exact_mod_cast hs2
    nlinarith
  have hfilter : ∀ idx ∈ List.range n,
      (decide (srNumTouches s ≤ srTouches (List.replicate n c)
        ((List.replicate n c).getD idx 0) idx (srPriceThreshold s))) = true := by
    intro idx hidx
    rw [getD_replicate' (List.mem_range.1 hidx),
      srTouches_const (List.mem_range.1 hidx) hthr]
    exact decide_eq_true (by omega)
  rw [List.filter_eq_self.2 hfilter]

/-- C7 (amended): on every constant-price series, for every sensitivity
and window, the five shape detectors (double bottom/top, head-and-
shoulders, inverse head-and-shoulders, triangles) return empty results;
`find_support_resistance` instead confirms every index as both support
and resistance once the series has at least `num_touches + 1` bars (for a
positive constant and sensitivity in `[1,10]`), since every point then
lies within the touch threshold of every other. -/
theorem const_series_behavior (n : ℕ) (c : ℚ) (s w : ℕ) :
    detect_double_bottom (constBars n c) s w = some [] ∧
    detect_double_top (constBars n c) s w = some [] ∧
    detect_head_and_shoulders (constBars n c) s w = some [] ∧
    detect_inverse_head_and_shoulders (constBars n c) s w = some [] ∧
    detect_triangle (constBars n c) s w = [] ∧
    (0 < c → 1 ≤ s → s ≤ 10 → srNumTouches s + 1 ≤ n →
      find_support_resistance (constBars n c) s w = (List.range n, List.range n)) :=
  ⟨detect_double_bottom_const n c s w, detect_double_top_const n c s w,
    detect_head_and_shoulders_const n c s w,
    detect_inverse_head_and_shoulders_const n c s w,
    detect_triangle_const n c s w,
    fun _ _ hs2 hn => find_support_resistance_const n c s w hs2 hn⟩

/-- Witness for the amended C7 at 7 bars of constant price 10 with
sensitivity 5. -/
theorem const_series_behavior_witness :
    (0 : ℚ) < 10 ∧ 1 ≤ 5 ∧ 5 ≤ 10 ∧ srNumTouches 5 + 1 ≤ 7 ∧
    detect_double_bottom (constBars 7 10) 5 30 = some [] ∧
    detect_double_top (constBars 7 10) 5 30 = some [] ∧
    detect_head_and_shoulders (constBars 7 10) 5 30 = some [] ∧
    detect_inverse_head_and_shoulders (constBars 7 10) 5 30 = some [] ∧
    detect_triangle (constBars 7 10) 5 30 = [] ∧
    find_support_resistance (constBars 7 10) 5 30 = (List.range 7, List.range 7) :=
  ⟨by norm_num, by norm_num, by norm_num, by decide,
    (const_series_behavior 7 10 5 30).1, (const_series_behavior 7 10 5 30).2.1,
    (const_series_behavior 7 10 5 30).2.2.1, (const_series_behavior 7 10 5 30).2.2.2.1,
    (const_series_behavior 7 10 5 30).2.2.2.2.1,
    (const_series_behavior 7 10 5 30).2.2.2.2.2 (by norm_num) (by norm_num)
      (by norm_num) (by decide)⟩
